import Mathlib

/-!
Verification of the execution core of the AssistWork backend: the intelligent
context store and parameter resolver (`apps/services/context/intelligent_context.py`),
the sequence execution engine (`apps/services/flows/execute_complex_flow.py`) and the
argument filter (`apps/services/utils/utils.py`).

Python values are modelled by the inductive type `Val` (None, booleans, integers,
strings, lists, dicts).  Python dicts are insertion-ordered association lists with
update-in-place assignment.  External effects (the LLM service and the standard JSON
parser applied to its replies) are parameters of the engine, bundled in `Oracle`;
every theorem quantifies over them.  String primitives (lower-casing, substring
search, replacement) are re-implemented over character lists so that all
definitions evaluate inside the kernel; lowering is ASCII, matching every string
the source manipulates.
-/

namespace AW

/-- One Unicode-unaware (ASCII) lowering step, the fragment of Python str.lower
    exercised by the source. -/
def lowerChar (c : Char) : Char :=
  if c = 'A' then 'a' else if c = 'B' then 'b' else if c = 'C' then 'c'
  else if c = 'D' then 'd' else if c = 'E' then 'e' else if c = 'F' then 'f'
  else if c = 'G' then 'g' else if c = 'H' then 'h' else if c = 'I' then 'i'
  else if c = 'J' then 'j' else if c = 'K' then 'k' else if c = 'L' then 'l'
  else if c = 'M' then 'm' else if c = 'N' then 'n' else if c = 'O' then 'o'
  else if c = 'P' then 'p' else if c = 'Q' then 'q' else if c = 'R' then 'r'
  else if c = 'S' then 's' else if c = 'T' then 't' else if c = 'U' then 'u'
  else if c = 'V' then 'v' else if c = 'W' then 'w' else if c = 'X' then 'x'
  else if c = 'Y' then 'y' else if c = 'Z' then 'z' else c

/-- Python str.lower (ASCII fragment). -/
def str_lower (s : String) : String := String.mk (s.data.map lowerChar)

/-- Does the character list start with the given pattern? -/
def hasPrefixChars : List Char → List Char → Bool
  | [], _ => true
  | _ :: _, [] => false
  | p :: ps, c :: cs => p == c && hasPrefixChars ps cs

/-- Does the pattern occur contiguously in the character list?  (Python `in`.) -/
def containsChars (pat : List Char) : List Char → Bool
  | [] => pat.isEmpty
  | c :: t => hasPrefixChars pat (c :: t) || containsChars pat t

/-- Python `pat in s` on strings. -/
def str_contains (s pat : String) : Bool := containsChars pat.data s.data

/-- Python s.startswith(pat). -/
def str_startswith (s pat : String) : Bool := hasPrefixChars pat.data s.data

/-- Python s.endswith(pat). -/
def str_endswith (s pat : String) : Bool := hasPrefixChars pat.data.reverse s.data.reverse

/-- Python s[:-n]. -/
def str_dropRight (s : String) (n : Nat) : String := String.mk (s.data.take (s.data.length - n))

/-- Python s[:n]. -/
def str_take (s : String) (n : Nat) : String := String.mk (s.data.take n)

/-- The whitespace set of Python str.strip. -/
def isSpaceChar (c : Char) : Bool := c = ' ' || c = '\n' || c = '\t' || c = '\r'

/-- Python s.strip(). -/
def str_strip (s : String) : String :=
  String.mk (((s.data.dropWhile isSpaceChar).reverse.dropWhile isSpaceChar).reverse)

/-- Index of the first occurrence of the pattern, if any. -/
def findSubIdx (pat : List Char) : List Char → Option Nat
  | [] => if pat.isEmpty then some 0 else none
  | c :: t => if hasPrefixChars pat (c :: t) then some 0 else (findSubIdx pat t).map (· + 1)

/-- Fuel-driven substring replacement; with fuel at least the length of the text this
    is Python s.replace(pat, rep) for a non-empty pattern. -/
def replaceFuel (pat rep : List Char) : Nat → List Char → List Char
  | 0, hay => hay
  | _ + 1, [] => []
  | f + 1, c :: t =>
      if hasPrefixChars pat (c :: t) then rep ++ replaceFuel pat rep f (List.drop (pat.length - 1) t)
      else c :: replaceFuel pat rep f t

/-- Python s.replace(pat, rep) (non-empty patterns; the source only replaces
    the fixed tokens "iterate_value", "```html" and "```"). -/
def str_replace (s pat rep : String) : String :=
  if pat.data.isEmpty then s else String.mk (replaceFuel pat.data rep.data s.data.length s.data)

/-- Python s.split(pat, 1)[-1]: the text after the first occurrence of pat. -/
def str_split_after_first (s pat : String) : String :=
  match findSubIdx pat.data s.data with
  | none => s
  | some i => String.mk (s.data.drop (i + pat.data.length))

/-- Python s.rsplit(pat, 1)[0]: the text before the last occurrence of pat. -/
def str_rsplit_before (s pat : String) : String :=
  match findSubIdx pat.data.reverse s.data.reverse with
  | none => s
  | some ri => String.mk (s.data.take (s.data.length - ri - pat.data.length))

/-- The dynamic values flowing through the pipeline: Python None, bool, int, str,
    list and (string-keyed, insertion-ordered) dict. -/
inductive Val where
  | vnone : Val
  | bool : Bool → Val
  | nat : Nat → Val
  | str : String → Val
  | list : List Val → Val
  | dict : List (String × Val) → Val
deriving Repr

mutual

def valBEq : Val → Val → Bool
  | .vnone, .vnone => true
  | .bool a, .bool b => a == b
  | .nat a, .nat b => a == b
  | .str a, .str b => a == b
  | .list a, .list b => valListBEq a b
  | .dict a, .dict b => valDictBEq a b
  | _, _ => false

def valListBEq : List Val → List Val → Bool
  | [], [] => true
  | a :: as, b :: bs => valBEq a b && valListBEq as bs
  | _, _ => false

def valDictBEq : List (String × Val) → List (String × Val) → Bool
  | [], [] => true
  | (k, a) :: as, (l, b) :: bs => k == l && valBEq a b && valDictBEq as bs
  | _, _ => false

end

mutual

theorem valBEq_iff : ∀ a b : Val, valBEq a b = true ↔ a = b
  | .vnone, .vnone => by simp [valBEq]
  | .bool _, .bool _ => by simp [valBEq]
  | .nat _, .nat _ => by simp [valBEq]
  | .str _, .str _ => by simp [valBEq]
  | .list a, .list b => by
      simp only [valBEq, Val.list.injEq]
      exact valListBEq_iff a b
  | .dict a, .dict b => by
      simp only [valBEq, Val.dict.injEq]
      exact valDictBEq_iff a b
  | .vnone, .bool _ => by simp [valBEq]
  | .vnone, .nat _ => by simp [valBEq]
  | .vnone, .str _ => by simp [valBEq]
  | .vnone, .list _ => by simp [valBEq]
  | .vnone, .dict _ => by simp [valBEq]
  | .bool _, .vnone => by simp [valBEq]
  | .bool _, .nat _ => by simp [valBEq]
  | .bool _, .str _ => by simp [valBEq]
  | .bool _, .list _ => by simp [valBEq]
  | .bool _, .dict _ => by simp [valBEq]
  | .nat _, .vnone => by simp [valBEq]
  | .nat _, .bool _ => by simp [valBEq]
  | .nat _, .str _ => by simp [valBEq]
  | .nat _, .list _ => by simp [valBEq]
  | .nat _, .dict _ => by simp [valBEq]
  | .str _, .vnone => by simp [valBEq]
  | .str _, .bool _ => by simp [valBEq]
  | .str _, .nat _ => by simp [valBEq]
  | .str _, .list _ => by simp [valBEq]
  | .str _, .dict _ => by simp [valBEq]
  | .list _, .vnone => by simp [valBEq]
  | .list _, .bool _ => by simp [valBEq]
  | .list _, .nat _ => by simp [valBEq]
  | .list _, .str _ => by simp [valBEq]
  | .list _, .dict _ => by simp [valBEq]
  | .dict _, .vnone => by simp [valBEq]
  | .dict _, .bool _ => by simp [valBEq]
  | .dict _, .nat _ => by simp [valBEq]
  | .dict _, .str _ => by simp [valBEq]
  | .dict _, .list _ => by simp [valBEq]

theorem valListBEq_iff : ∀ a b : List Val, valListBEq a b = true ↔ a = b
  | [], [] => by simp [valListBEq]
  | [], _ :: _ => by simp [valListBEq]
  | _ :: _, [] => by simp [valListBEq]
  | a :: as, b :: bs => by
      simp only [valListBEq, Bool.and_eq_true, List.cons.injEq]
      rw [valBEq_iff a b, valListBEq_iff as bs]

theorem valDictBEq_iff : ∀ a b : List (String × Val), valDictBEq a b = true ↔ a = b
  | [], [] => by simp [valDictBEq]
  | [], _ :: _ => by simp [valDictBEq]
  | _ :: _, [] => by simp [valDictBEq]
  | (k, a) :: as, (l, b) :: bs => by
      simp only [valDictBEq, Bool.and_eq_true, List.cons.injEq, Prod.mk.injEq, beq_iff_eq]
      rw [valBEq_iff a b, valDictBEq_iff as bs, and_assoc]

end

instance : DecidableEq Val := fun a b => decidable_of_iff (valBEq a b = true) (valBEq_iff a b)

/-- Python truthiness for the modelled values. -/
def truthy : Val → Bool
  | .vnone => false
  | .bool b => b
  | .nat n => n ≠ 0
  | .str s => s ≠ ""
  | .list l => !l.isEmpty
  | .dict d => !d.isEmpty

mutual

/-- Python str() of a value.  Container rendering approximates CPython repr
    punctuation; every theorem below depends at most on str() of strings and
    numbers, which are exact. -/
def pyStr : Val → String
  | .vnone => "None"
  | .bool b => if b then "True" else "False"
  | .nat n => toString n
  | .str s => s
  | .list l => "[" ++ pyStrList l ++ "]"
  | .dict d => "\x7b" ++ pyStrDict d ++ "\x7d"

def pyStrList : List Val → String
  | [] => ""
  | [v] => pyStr v
  | v :: rest => pyStr v ++ ", " ++ pyStrList rest

def pyStrDict : List (String × Val) → String
  | [] => ""
  | [(k, v)] => k ++ ": " ++ pyStr v
  | (k, v) :: rest => k ++ ": " ++ pyStr v ++ ", " ++ pyStrDict rest

end

/-- A Python dict with string keys: insertion-ordered association list with
    unique keys maintained by `dset`. -/
abbrev AList := List (String × Val)

/-- First binding of a key (Python membership and item access share it). -/
def alookup : AList → String → Option Val
  | [], _ => none
  | (k, v) :: rest, key => if k = key then some v else alookup rest key

/-- Python `key in d`. -/
def containsKey (d : AList) (k : String) : Bool := (alookup d k).isSome

/-- Python d.get(key): None when the key is absent. -/
def dget (d : AList) (k : String) : Val := (alookup d k).getD Val.vnone

/-- Python d[key] = v: update in place, else append preserving insertion order. -/
def dset : AList → String → Val → AList
  | [], k, v => [(k, v)]
  | (k', v') :: rest, k, v => if k' = k then (k, v) :: rest else (k', v') :: dset rest k v

/-- Python d.update(e): assign every binding of e into d, in order. -/
def pyUpdate (d e : AList) : AList := e.foldl (fun acc kv => dset acc kv.1 kv.2) d

/-- Python `self.data.setdefault(key, []); self.data[key].extend(items)` as the
    source writes it (initialise to the empty list when absent, then extend).
    A present non-list value would make the original raise; no path of the
    repository stores a non-list under an accumulator key. -/
def accum_extend (d : AList) (k : String) (items : List Val) : AList :=
  let d' := if containsKey d k then d else dset d k (.list [])
  match alookup d' k with
  | some (.list l) => dset d' k (.list (l ++ items))
  | _ => d'

/-- Accumulate a single item (the `append` flavour of the same source idiom). -/
def accum_append (d : AList) (k : String) (item : Val) : AList := accum_extend d k [item]

/-- Lookup in the resolution-counter dict (string to int). -/
def clookup : List (String × Nat) → String → Option Nat
  | [], _ => none
  | (k, v) :: rest, key => if k = key then some v else clookup rest key

/-- Assignment in the resolution-counter dict. -/
def cset : List (String × Nat) → String → Nat → List (String × Nat)
  | [], k, v => [(k, v)]
  | (k', v') :: rest, k, v => if k' = k then (k, v) :: rest else (k', v') :: cset rest k v

/-- One stored entry of IntelligentContext.method_results. -/
structure MethodResult where
  method : String
  result : Val
  signature : String
  step : Nat
deriving Repr, DecidableEq

/-- The state of an IntelligentContext object.  `llm_connected` models whether the
    llm_service attribute is set (execute_method_sequence attaches it on entry). -/
structure Ctx where
  data : AList := []
  method_results : List MethodResult := []
  resolution_counters : List (String × Nat) := []
  llm_connected : Bool := false
deriving Repr, DecidableEq

/-- A freshly constructed IntelligentContext(). -/
def Ctx.init : Ctx := {}

/-- ids = [item[\x27id\x27] for item in value if \x27id\x27 in item].  (Elements of the
    scanned lists are structured objects on every path the source exercises.) -/
def extract_ids (items : List Val) : List Val :=
  items.filterMap (fun it => match it with | .dict d => alookup d "id" | _ => none)

/-- Head of the first loop of _extract_from_dict: is this value a non-empty list
    whose first element is an object carrying an id field? -/
def headDictWithId : List Val → Bool
  | .dict d :: _ => containsKey d "id"
  | _ => false

/-- Body of the first loop of IntelligentContext._extract_from_dict for one field. -/
def efd_field (m : String) (data : AList) (key : String) (value : Val) : AList :=
  match value with
  | .list (it0 :: rest) =>
      if headDictWithId (it0 :: rest) then
        let ids := extract_ids (it0 :: rest)
        let d1 := accum_extend data (key ++ "_ids") ids
        let d2 := accum_extend d1 (m ++ "_" ++ key ++ "_ids") ids
        let d3 := accum_extend d2 (key ++ "_data") (it0 :: rest)
        accum_extend d3 (m ++ "_" ++ key ++ "_data") (it0 :: rest)
      else data
  | .list [] =>
      if str_contains (str_lower key) "id" then dset (dset data (m ++ "_id") value) "last_id" value
      else data
  | _ =>
      if str_contains (str_lower key) "id" then dset (dset data (m ++ "_id") value) "last_id" value
      else data

/-- The first loop of _extract_from_dict over all fields of the result. -/
def efd_loop1 (m : String) : AList → List (String × Val) → AList
  | data, [] => data
  | data, (key, value) :: rest => efd_loop1 m (efd_field m data key value) rest

/-- IntelligentContext._extract_from_dict. -/
def extract_from_dict (m : String) (data : AList) (result : List (String × Val)) : AList :=
  let d1 := efd_loop1 m data result
  match result.find? (fun kv => str_lower kv.1 = "content" || str_lower kv.1 = "body") with
  | some (_, value) =>
      let d2 := accum_append d1 (m ++ "_contents") value
      dset (dset d2 (m ++ "_content") value) "last_content" value
  | none =>
      match result.find? (fun kv => str_lower kv.1 = "text" || str_lower kv.1 = "message") with
      | some (_, value) => dset (dset d1 (m ++ "_content") value) "last_content" value
      | none => d1

/-- IntelligentContext._extract_from_list. -/
def extract_from_list (m : String) (data : AList) (result : List Val) : AList :=
  match result with
  | [] => data
  | it0 :: _ =>
      match it0 with
      | .dict d0 =>
          let ids := extract_ids result
          let d1 :=
            if containsKey d0 "id" then dset (dset data (m ++ "_ids") (.list ids)) "ids" (.list ids)
            else data
          dset d1 (m ++ "_list") (.list result)
      | .str _ => dset data (m ++ "_ids") (.list result)
      | _ => data

/-- IntelligentContext._extract_from_string. -/
def extract_from_string (m : String) (data : AList) (s : String) : AList :=
  dset (dset data (m ++ "_text") (.str s)) "last_text" (.str s)

/-- IntelligentContext._analyze_and_store_data. -/
def analyze_and_store_data (ctx : Ctx) (m : String) (result : Val) : Ctx :=
  let data1 :=
    match result with
    | .dict d => extract_from_dict m ctx.data d
    | .list l => extract_from_list m ctx.data l
    | .str s => extract_from_string m ctx.data s
    | _ => ctx.data
  let data2 := accum_append data1 (m ++ "_results") result
  { ctx with data := dset data2 (m ++ "_result") result }

/-- IntelligentContext.store_result. -/
def store_result (ctx : Ctx) (m : String) (result : Val) (signature : String := "") : Ctx :=
  let ctx1 := { ctx with method_results := ctx.method_results ++
    [{ method := m, result := result, signature := signature, step := ctx.method_results.length }] }
  analyze_and_store_data ctx1 m result

/-- Set the resolution counter of one parameter. -/
def bump_counter (ctx : Ctx) (p : String) (n : Nat) : Ctx :=
  { ctx with resolution_counters := cset ctx.resolution_counters p n }

/-- The key scan of _resolve_id_parameter: first key present with a non-empty
    list value enters the counter branch; a string value is returned directly;
    any other present value (or an empty list) falls through to the next key. -/
def idKeyScan (ctx : Ctx) (p : String) : List String → Option (Val × Ctx)
  | [] => none
  | key :: rest =>
      match alookup ctx.data key with
      | some (.list ids) =>
          if ids.isEmpty then idKeyScan ctx p rest
          else
            let c := (clookup ctx.resolution_counters p).getD 0
            let ctx' := bump_counter ctx p (c + 1)
            if c < ids.length then some (ids.getD c Val.vnone, ctx')
            else some (ids.getD (ids.length - 1) Val.vnone, ctx')
      | some (.str s) => some (.str s, ctx)
      | some _ => idKeyScan ctx p rest
      | none => idKeyScan ctx p rest

/-- IntelligentContext._resolve_id_parameter (counter-based id resolution). -/
def resolve_id_parameter (ctx : Ctx) (p : String) : Val × Ctx :=
  if str_endswith p "_id" = false then (.vnone, ctx)
  else
    let pref := str_dropRight p 3
    match idKeyScan ctx p [pref ++ "_ids", pref ++ "s_ids", "ids"] with
    | some r => r
    | none =>
        match alookup ctx.data "last_id" with
        | some v => (v, ctx)
        | none => (.vnone, ctx)

/-- One entry of the pattern table: a context key to try, or an int default. -/
inductive Pat where
  | ps : String → Pat
  | pi : Nat → Pat
deriving Repr, DecidableEq

/-- The fixed pattern table of _resolve_by_pattern. -/
def pattern_table (p : String) : Option (List Pat) :=
  if p = "to" then some [.ps "email", .ps "recipient", .ps "destination"]
  else if p = "subject" then some [.ps "title", .ps "topic", .ps "asunto"]
  else if p = "body" then some [.ps "drive.read_file_content", .ps "llm.generate_content",
    .ps "content", .ps "text", .ps "message", .ps "description"]
  else if p = "content" then some [.ps "body", .ps "text", .ps "message"]
  else if p = "query" then some [.ps "search", .ps "term", .ps "keyword"]
  else if p = "max_results" then some [.pi 10, .pi 5]
  else none

/-- The pattern loop: the first present key is returned (even when it stores
    None); an int pattern is returned directly. -/
def patScan (data : AList) : List Pat → Val
  | [] => .vnone
  | .ps s :: rest => if containsKey data s then dget data s else patScan data rest
  | .pi n :: _ => .nat n

/-- IntelligentContext._resolve_by_pattern. -/
def resolve_by_pattern (data : AList) (p : String) : Val :=
  match pattern_table p with
  | some pats => patScan data pats
  | none => .vnone

/-- The fallback scan of _resolve_last_relevant: first present key wins. -/
def keyScanFirst (data : AList) : List String → Val
  | [] => .vnone
  | k :: rest => if containsKey data k then dget data k else keyScanFirst data rest

/-- IntelligentContext._resolve_last_relevant. -/
def resolve_last_relevant (data : AList) (p : String) : Val :=
  keyScanFirst data ["last_" ++ p, p ++ "_result", "last_content", "last_text"]

/-- IntelligentContext.resolve_parameter: the four strategies tried in order,
    stopping at the first non-None value; the id strategy mutates the counters
    even when the overall resolution continues past it. -/
def resolve_parameter (ctx : Ctx) (p : String) : Val × Ctx :=
  let r1 := dget ctx.data p
  if r1 ≠ Val.vnone then (r1, ctx)
  else
    let (r2, ctx2) := resolve_id_parameter ctx p
    if r2 ≠ Val.vnone then (r2, ctx2)
    else
      let r3 := resolve_by_pattern ctx2.data p
      if r3 ≠ Val.vnone then (r3, ctx2)
      else (resolve_last_relevant ctx2.data p, ctx2)

/-- The generation-trigger sentinels of needs_content_generation. -/
def generation_triggers : List String :=
  ["dynamic", "auto", "generate", "dynamic_summary", "auto_summary",
   "generate_content", "create_content"]

/-- IntelligentContext.needs_content_generation. -/
def needs_content_generation (v : Val) : Bool :=
  if truthy v = false then false
  else generation_triggers.any (fun t => str_contains (str_lower (pyStr v)) t)

/-- The external collaborators of the engine: the LLM service (call_llm, which
    returns text or raises) and the standard JSON parser applied to its replies
    (json.loads, which returns a value or raises).  All theorems quantify over
    both. -/
structure Oracle where
  call_llm : String → Except String String
  json_loads : String → Except String Val

/-- Join a list of strings with a separator. -/
def joinSep (sep : String) : List String → String
  | [] => ""
  | [x] => x
  | x :: rest => x ++ sep ++ joinSep sep rest

/-- The role-specific instruction of _generate_contextual_content. -/
def gen_prompt_instruction (p : String) : String :=
  if p = "body" then
    "Genera un cuerpo de texto profesional, completo y persuasivo basado en la siguiente solicitud del usuario. Tu respuesta debe ser SOLO el cuerpo del texto, sin introducción ni metadatos: "
  else if p = "subject" then
    "Genera un asunto de correo conciso, atractivo y profesional basado en la siguiente solicitud del usuario. Tu respuesta debe ser SOLO el asunto del texto, sin introducción ni metadatos: "
  else
    "Genera contenido para el parámetro \x27" ++ p ++ "\x27 basado en el contexto. Tu respuesta debe ser SOLAMENTE el valor de contenido generado: "

/-- The full prompt of _generate_contextual_content. -/
def gen_full_prompt (p ui : String) : String :=
  gen_prompt_instruction p ++ "\n\n[SOLICITUD DEL USUARIO]: " ++ ui

/-- IntelligentContext._generate_contextual_content: never raises; an LLM failure
    becomes a visible error string. -/
def generate_contextual_content (orc : Oracle) (ctx : Ctx) (p ui : String) : String :=
  if ctx.llm_connected = false then
    "Error: LLM service not available for dynamic content generation of \x27" ++ p ++ "\x27."
  else
    match orc.call_llm (gen_full_prompt p ui) with
    | .ok g => str_strip g
    | .error _ => "Error al generar contenido LLM: " ++ p

/-- IntelligentContext.generate_content_if_needed. -/
def generate_content_if_needed (orc : Oracle) (ctx : Ctx) (p : String) (v : Val) (ui : String) : Val :=
  if needs_content_generation v = false then v
  else
    let g := generate_contextual_content orc ctx p ui
    if g ≠ "" then .str g else v

/-- The key substrings selecting the context snapshot sent to the argument
    resolver. -/
def snapshot_tokens : List String := ["content", "text", "email", "id", "subject", "body"]

/-- The filtered context snapshot of resolve_dynamic_arguments_with_llm. -/
def context_snapshot (data : AList) : AList :=
  data.filter (fun kv => snapshot_tokens.any (fun t => str_contains (str_lower kv.1) t))

/-- The arguments marked "dynamic" (case-insensitive string comparison). -/
def dynamicParams (args : AList) : AList :=
  args.filter (fun kv => match kv.2 with | .str s => str_lower s = "dynamic" | _ => false)

/-- Step 1 of resolve_dynamic_arguments_with_llm: resolve identifier-suffixed
    parameters through the counter, keep the rest for the LLM.  Returns the
    resolved dict, the remaining-dynamic dict and the mutated context. -/
def counterPhase : Ctx → AList → AList × AList × Ctx
  | ctx, [] => ([], [], ctx)
  | ctx, (p, _) :: rest =>
      if str_endswith p "_id" then
        let (v, ctx1) := resolve_id_parameter ctx p
        if v ≠ Val.vnone then
          let (res, rem, ctx2) := counterPhase ctx1 rest
          ((p, v) :: res, rem, ctx2)
        else
          let (res, rem, ctx2) := counterPhase ctx1 rest
          (res, (p, Val.str "dynamic") :: rem, ctx2)
      else
        let (res, rem, ctx2) := counterPhase ctx rest
        (res, (p, Val.str "dynamic") :: rem, ctx2)

/-- Python repr of the list of remaining parameter names. -/
def pyReprKeys (keys : List String) : String :=
  "[" ++ joinSep ", " (keys.map (fun k => "\x27" ++ k ++ "\x27")) ++ "]"

/-- The argument-resolver prompt of resolve_dynamic_arguments_with_llm.  The
    embedded collections are rendered through pyStr, approximating CPython repr;
    the prompt is consumed only by the opaque external model, and every theorem
    quantifies over the oracle. -/
def resolver_prompt (m : String) (keys : List String) (snapshot : AList) (ui : String) : String :=
  "Eres un resolvedor de argumentos para un orquestador de acciones.\n" ++
  "Tu única tarea es completar los valores de los parámetros marcados como \"dynamic\".\n" ++
  "Método a ejecutar:\n" ++ m ++ "\n" ++
  "Parámetros a resolver (estas son las ÚNICAS claves permitidas):\n" ++
  pyReprKeys keys ++ "\n" ++
  "Contexto disponible:\n" ++ pyStr (.dict snapshot) ++ "\n" ++
  "Solicitud original del usuario:\n" ++ ui ++ "\n" ++
  "Devuelve el JSON final ahora."

/-- IntelligentContext.resolve_dynamic_arguments_with_llm.  Identifier-suffixed
    dynamic parameters are resolved by the counter; only the remaining ones go to
    the LLM; the LLM reply is parsed as JSON and must be an object, but its keys
    are merged without validation; any failure in that path is re-raised as a
    RuntimeError (the .error case). -/
def resolve_dynamic_arguments_with_llm (orc : Oracle) (ctx : Ctx) (m : String) (args : AList)
    (ui : String) : Except String (AList × Ctx) :=
  let dyn := dynamicParams args
  if dyn.isEmpty then .ok ([], ctx)
  else if ctx.llm_connected = false then .error "LLM service no está conectado al contexto"
  else
    match counterPhase ctx dyn with
    | (resolved, remaining, ctx1) =>
        if remaining.isEmpty then .ok (resolved, ctx1)
        else
          let snapshot := context_snapshot ctx1.data
          match orc.call_llm (resolver_prompt m (remaining.map (fun kv => kv.1)) snapshot ui) with
          | .error e => .error ("Error resolviendo argumentos dinámicos con LLM: " ++ e)
          | .ok raw =>
              match orc.json_loads raw with
              | .error e => .error ("Error resolviendo argumentos dinámicos con LLM: " ++ e)
              | .ok (.dict d) => .ok (pyUpdate resolved d, ctx1)
              | .ok _ =>
                  .error "Error resolviendo argumentos dinámicos con LLM: El LLM no devolvió un objeto JSON"

/-- A registered tool method: the parameter names of its signature (without self)
    and its callable, which returns a value or raises. -/
structure Method where
  params : List String
  func : AList → Except String Val

/-- A tool: mapping from method name to method metadata. -/
abbrev Tool := List (String × Method)

/-- The process-wide TOOL_REGISTRY: tool name to tool. -/
abbrev Registry := List (String × Tool)

/-- Method lookup inside a tool (Python dict .get). -/
def tlookup : Tool → String → Option Method
  | [], _ => none
  | (k, v) :: rest, key => if k = key then some v else tlookup rest key

/-- Tool lookup in the registry (Python dict .get). -/
def rlookup : Registry → String → Option Tool
  | [], _ => none
  | (k, v) :: rest, key => if k = key then some v else rlookup rest key

/-- utils.get_function_signature: a readable rendering of the signature. -/
def get_function_signature (m : String) (params : List String) : String :=
  m ++ "(" ++ joinSep ", " params ++ ")"

/-- utils.filter_valid_args: keep only arguments named in the signature whose
    value is not None. -/
def filter_valid_args (params : List String) (args : AList) : AList :=
  args.filter (fun kv => params.contains kv.1 && decide (kv.2 ≠ Val.vnone))

/-- One step of a plan, as read from the planner JSON.  A missing field is None. -/
structure Step where
  tool : Option String := none
  method : Option String := none
  args : AList := []
  action : Option String := none
  iterate : Bool := false
  source : Option String := none
  task : Option String := none
deriving Repr, DecidableEq

/-- Is the value a structured object? -/
def isDictVal : Val → Bool
  | .dict _ => true
  | _ => false

/-- The candidate lists of extract_iterable: dict fields whose value is a list
    with every element a structured object (vacuously true for the empty list,
    as in the source). -/
def candidatesOf (d : AList) : List (String × List Val) :=
  d.filterMap (fun kv => match kv.2 with
    | .list items => if items.all isDictVal then some (kv.1, items) else none
    | _ => none)

/-- Do all elements of the list carry an id field? -/
def allHaveId (items : List Val) : Bool :=
  items.all (fun it => match it with | .dict dd => containsKey dd "id" | _ => false)

/-- The error text of extract_iterable / execute_iteration_step. -/
def no_array_msg (src : String) : String :=
  "No se encontró array válido en \x27" ++ src ++ "\x27 para iterar"

/-- The nested extract_iterable of execute_iteration_step: a list is used
    directly; in a dict, a single candidate list is used; among several, the
    first whose elements all carry an id is preferred, else the first candidate;
    no candidate (or a non-collection) raises. -/
def extract_iterable (source_data : Val) (source_name : String) : Except String (List Val) :=
  match source_data with
  | .list l => .ok l
  | .dict d =>
      match candidatesOf d with
      | [c] => .ok c.2
      | c :: cs =>
          match (c :: cs).find? (fun cl => allHaveId cl.2) with
          | some cl => .ok cl.2
          | none => .ok c.2
      | [] => .error (no_array_msg source_name)
  | _ => .error (no_array_msg source_name)

/-- The iterate_value substitution of execute_iteration_step: a whole-value
    match is replaced by the element, a substring match by its str(). -/
def substitute_iterate (item : Val) (args : AList) : AList :=
  args.map (fun kv =>
    if kv.2 = Val.str "iterate_value" then (kv.1, item)
    else match kv.2 with
      | .str s =>
          if str_contains s "iterate_value" then (kv.1, .str (str_replace s "iterate_value" (pyStr item)))
          else (kv.1, .str s)
      | v => (kv.1, v))

/-- The per-iteration dynamic-parameter resolution of execute_iteration_step. -/
def resolveIterArgs : Ctx → AList → AList × Ctx
  | ctx, [] => ([], ctx)
  | ctx, (p, v) :: rest =>
      if v = Val.str "dynamic" then
        let (r, ctx1) := resolve_parameter ctx p
        let (restA, ctx2) := resolveIterArgs ctx1 rest
        ((p, r) :: restA, ctx2)
      else
        let (restA, ctx1) := resolveIterArgs ctx rest
        ((p, v) :: restA, ctx1)

/-- The element loop of execute_iteration_step: every element is processed, a
    raising invocation is recorded as a failed entry and the loop continues. -/
def iterLoop (meta : Method) (m : String) (base_args : AList) : List Val → Nat → Ctx → List Val × Ctx
  | [], _, ctx => ([], ctx)
  | item :: rest, i, ctx =>
      let iteration_args := substitute_iterate item base_args
      let (resolved_args, ctx1) := resolveIterArgs ctx iteration_args
      let filtered := filter_valid_args meta.params resolved_args
      match meta.func filtered with
      | .ok result =>
          let ctx2 := store_result ctx1 (m ++ "_" ++ toString i) result
          let entry : Val := .dict [("index", .nat i), ("item", item), ("result", result),
            ("success", .bool true)]
          let (restE, ctx3) := iterLoop meta m base_args rest (i + 1) ctx2
          (entry :: restE, ctx3)
      | .error e =>
          let entry : Val := .dict [("index", .nat i), ("item", item),
            ("error", .str ("Error en iteración " ++ toString i ++ ": " ++ e)),
            ("success", .bool false)]
          let (restE, ctx2) := iterLoop meta m base_args rest (i + 1) ctx1
          (entry :: restE, ctx2)

/-- Python truthiness of the success field of an iteration entry. -/
def entryTruthySuccess (e : Val) : Bool :=
  match e with
  | .dict d => truthy (dget d "success")
  | _ => false

/-- successful_results = the result of every entry whose success flag is truthy. -/
def successResultsOf (entries : List Val) : List Val :=
  entries.filterMap (fun e => match e with
    | .dict d => if truthy (dget d "success") then some (dget d "result") else none
    | _ => none)

/-- execute_iteration_step.  The step tool may be absent (the llm_placeholder
    pass-through), in which case accessing its methods raises, as in the source;
    Python runtime exception texts are approximated. -/
def execute_iteration_step (step : Step) (ctx : Ctx) (step_tool : Option Tool) (_ui : String) :
    Except String (Val × Ctx) :=
  match step.source with
  | none => .error "AttributeError: \x27NoneType\x27 object has no attribute \x27endswith\x27"
  | some src =>
      let (raw_data, ctx1) := resolve_parameter ctx src
      match extract_iterable raw_data src with
      | .error _ => .ok (.dict [("success", .bool false), ("error", .str (no_array_msg src))], ctx1)
      | .ok arr =>
          match step_tool with
          | none => .error "AttributeError: \x27NoneType\x27 object has no attribute \x27get\x27"
          | some tool =>
              match (match step.method with | some m => tlookup tool m | none => none) with
              | none => .error "AttributeError: \x27NoneType\x27 object has no attribute \x27get\x27"
              | some meta =>
                  let m := match step.method with | some m => m | none => "None"
                  let (entries, ctx2) := iterLoop meta m step.args arr 0 ctx1
                  let ctx3 := { ctx2 with data := dset ctx2.data (m ++ "_iterations") (.list entries) }
                  let ctx4 := { ctx3 with
                    data := dset ctx3.data (m ++ "_iteration_results") (.list (successResultsOf entries)) }
                  let sc := entries.countP entryTruthySuccess
                  .ok (.dict [("success", .bool true),
                    ("result", .str ("Completadas " ++ toString sc ++ "/" ++ toString arr.length ++
                      " iteraciones")),
                    ("iteration_results", .list entries)], ctx4)

/-- One digest line of execute_llm_step: the content-bearing field of a prior
    result (content, else body, else text, else message), when truthy. -/
def llm_digest_entry (mr : MethodResult) : String :=
  let content : Val :=
    match mr.result with
    | .dict d =>
        let c1 := dget d "content"
        if truthy c1 then c1
        else
          let c2 := dget d "body"
          if truthy c2 then c2
          else
            let c3 := dget d "text"
            if truthy c3 then c3 else (alookup d "message").getD (.str "")
    | .str s => .str s
    | _ => .str ""
  if truthy content then
    "\n--- Paso " ++ toString mr.step ++ ": " ++ mr.method ++ " ---\n" ++ pyStr content ++ "\n"
  else ""

/-- The context digest of execute_llm_step. -/
def llm_step_digest (mrs : List MethodResult) : String :=
  mrs.foldl (fun acc mr => acc ++ llm_digest_entry mr) ""

/-- The prompt of execute_llm_step (instructions abridged; the prompt is consumed
    only by the opaque external model). -/
def llm_step_prompt (ui task : String) (ctx : Ctx) : String :=
  "SOLICITUD ORIGINAL DEL USUARIO:\n\"" ++ ui ++ "\"\n\n" ++
  "TAREA ESPECÍFICA A EJECUTAR:\n" ++ task ++ "\n\n" ++
  "DATOS DISPONIBLES PARA LA TAREA:\n--- CONTENIDO PRINCIPAL ---\n" ++
  llm_step_digest ctx.method_results ++ "\n\n" ++
  "--- CONTEXTO ADICIONAL ---\n" ++ pyStr (.dict (ctx.data.take 3)) ++ "\n\n" ++
  "INSTRUCCIONES PRINCIPALES: extraer la información, redactar la respuesta, sin JSON."

/-- body_part[1:-1] when wrapped in matching-style quotes. -/
def strip_quotes_if_wrapped (s : String) : String :=
  let starts := str_startswith s "\x27" || str_startswith s "\""
  let ends := str_endswith s "\x27" || str_endswith s "\""
  if starts && ends then String.mk ((s.data.drop 1).dropLast) else s

/-- The tool_code unwrapping of normalize_llm_output: the text after the first
    "body=", stripped and unquoted. -/
def tool_code_body (tc : String) : Option String :=
  if str_contains tc "body=" then
    match findSubIdx "body=".data tc.data with
    | some i => some (strip_quotes_if_wrapped (str_strip (String.mk (tc.data.drop (i + 5)))))
    | none => none
  else none

/-- The normalize_llm_output helper of execute_llm_step: unwrap a JSON reply that
    embeds the payload under a body key or inside a tool_code string; any failure
    falls back to the stripped text.  (A truthy non-dict, non-string value under
    "parameters" is folded into the stripped-text fallback.) -/
def normalize_llm_output (orc : Oracle) (llm_output : String) : Val :=
  match orc.json_loads llm_output with
  | .error _ => .str (str_strip llm_output)
  | .ok (.dict d) =>
      let pv := dget d "parameters"
      let params : Val := if truthy pv then pv else .dict d
      match params with
      | .dict pd =>
          match alookup pd "body" with
          | some bv => bv
          | none =>
              match alookup d "tool_code" with
              | some (.str tc) =>
                  match tool_code_body tc with
                  | some b => .str b
                  | none => .str (str_strip llm_output)
              | _ => .str (str_strip llm_output)
      | _ => .str (str_strip llm_output)
  | .ok _ => .str (str_strip llm_output)

/-- The markdown-fence stripping applied to the raw LLM reply. -/
def strip_md_fences (r : String) : String :=
  if str_startswith r "```html" then str_strip (str_replace (str_replace r "```html" "") "```" "")
  else if str_startswith r "```" then
    str_strip (str_rsplit_before (str_split_after_first r "\n") "```")
  else r

/-- execute_llm_step: never raises; failure becomes a success=False record.  On
    success the unwrapped text is stored under llm.generate. -/
def execute_llm_step (orc : Oracle) (step : Step) (ctx : Ctx) (ui : String) : Val × Ctx :=
  let task := step.task.getD "procesar información"
  match orc.call_llm (llm_step_prompt ui task ctx) with
  | .error e =>
      (.dict [("success", .bool false), ("error", .str ("Error en procesamiento LLM: " ++ e))], ctx)
  | .ok r0 =>
      let norm := normalize_llm_output orc (strip_md_fences r0)
      let ctx1 := store_result ctx "llm.generate" (.dict [("content", norm), ("task", .str task)])
      (.dict [("success", .bool true), ("result", norm)], ctx1)

/-- The record appended to results for one executed step (a Python dict). -/
structure SeqResult where
  success : Bool
  error : Option String := none
  results : List Val := []
  stopped_at_step : Option Nat := none
  context_data : Option AList := none
  total_steps : Option Nat := none
deriving Repr, DecidableEq

/-- The outcome of processing one step of the main loop: recorded-and-continue,
    fatal return (the except branch of the tool-call path), break (no tool for a
    non-LLM action), or an uncaught exception. -/
inductive StepOut where
  | recorded : Val → Ctx → StepOut
  | fatal : Val → String → Ctx → StepOut
  | broke : Val → StepOut
  | raised : String → StepOut
deriving Repr

/-- tool_name: Union[str, List[str]] of execute_method_sequence. -/
inductive ToolArg where
  | one : String → ToolArg
  | many : List String → ToolArg
deriving Repr, DecidableEq

/-- tool_list = tool_name if isinstance(tool_name, list) else [tool_name]. -/
def normalize_tools : ToolArg → List String
  | .one s => [s]
  | .many l => l

/-- The failed record appended when the step tool is not in the registry. -/
def toolNotFoundEntry (i : Nat) (nm : String) : Val :=
  .dict [("step", .nat (i + 1)), ("success", .bool false),
    ("error", .str ("Tool \x27" ++ nm ++ "\x27 no encontrada"))]

/-- The failed record appended when no tool was supplied for a non-LLM action. -/
def noToolEntry (i : Nat) : Val :=
  .dict [("step", .nat (i + 1)), ("success", .bool false),
    ("error", .str "No se especificó herramienta para una acción que no es LLM.")]

/-- The method field of a result record (None when the step declares none). -/
def optMethodVal : Option String → Val
  | some m => .str m
  | none => .vnone

/-- The failed record of the except branch of a tool-call step. -/
def mkFatalEntry (nm : String) (mopt : Option String) (msg : String) : Val :=
  .dict [("tool", .str nm), ("method", optMethodVal mopt), ("success", .bool false),
    ("error", .str msg)]

/-- The success record of a tool-call step (with the truncated preview). -/
def mkSuccessEntry (nm : String) (mopt : Option String) (result : Val) : Val :=
  .dict [("tool", .str nm), ("method", optMethodVal mopt), ("success", .bool true),
    ("result", .str (str_take (pyStr result) 200))]

/-- The fields of a step-handler result dict (always a dict in the source). -/
def dictFieldsOf (v : Val) : List (String × Val) :=
  match v with
  | .dict d => d
  | _ => []

/-- The final-argument loop of a tool-call step: LLM-resolved values first, then
    the context resolver for unresolved dynamics, then optional content
    generation for literals. -/
def resolveStepArgs (orc : Oracle) (dyn : AList) (ui : String) : Ctx → AList → AList × Ctx
  | ctx, [] => ([], ctx)
  | ctx, (p, v) :: rest =>
      if containsKey dyn p then
        let (restA, ctx1) := resolveStepArgs orc dyn ui ctx rest
        ((p, dget dyn p) :: restA, ctx1)
      else if v = Val.str "dynamic" then
        let (r, ctx1) := resolve_parameter ctx p
        let (restA, ctx2) := resolveStepArgs orc dyn ui ctx1 rest
        ((p, r) :: restA, ctx2)
      else
        let rv := generate_content_if_needed orc ctx p v ui
        let final := if truthy rv then rv else v
        let (restA, ctx1) := resolveStepArgs orc dyn ui ctx rest
        ((p, final) :: restA, ctx1)

/-- The body of the main loop of execute_method_sequence for one step, once its
    tool name is resolved.  The progress-event callback is modelled as absent
    (None), exactly skipping the emission branch. -/
def execStepNamed (reg : Registry) (orc : Oracle) (ui : String) (step : Step) (i : Nat)
    (ctx : Ctx) (nm : String) : StepOut :=
  let step_tool := rlookup reg nm
  let missing := match step_tool with | none => true | some t => t.isEmpty
  match missing && decide (nm ≠ "llm_placeholder") with
  | true => .recorded (toolNotFoundEntry i nm) ctx
  | false =>
  match step.action == some "llm" with
  | true =>
    let (rd, ctx1) := execute_llm_step orc step ctx ui
    let entry : Val := .dict (pyUpdate
      [("step", .nat (i + 1)), ("type", .str "llm"),
       ("task", match step.task with | some t => .str t | none => .vnone)] (dictFieldsOf rd))
    .recorded entry ctx1
  | false =>
  match step.iterate with
  | true =>
    match execute_iteration_step step ctx step_tool ui with
    | .error e => .raised e
    | .ok (rd, ctx1) =>
        let entry : Val := .dict (pyUpdate
          [("step", .nat (i + 1)), ("type", .str "iteration"),
           ("method", optMethodVal step.method), ("tool", .str nm)] (dictFieldsOf rd))
        .recorded entry ctx1
  | false =>
    let mName := match step.method with | some m => m | none => "None"
    match resolve_dynamic_arguments_with_llm orc ctx mName step.args ui with
    | .error e => .raised e
    | .ok (dyn, ctx1) =>
        let (resolved_args, ctx2) := resolveStepArgs orc dyn ui ctx1 step.args
        match step_tool with
        | none =>
            let msg := "Error ejecutando " ++ nm ++ "." ++ mName ++
              ": AttributeError: \x27NoneType\x27 object has no attribute \x27get\x27"
            .fatal (mkFatalEntry nm step.method msg) msg ctx2
        | some tool =>
            match (match step.method with | some m => tlookup tool m | none => none) with
            | none =>
                let msg := "Error ejecutando " ++ nm ++ "." ++ mName ++ ": Método \x27" ++ mName ++
                  "\x27 no encontrado en " ++ nm
                .fatal (mkFatalEntry nm step.method msg) msg ctx2
            | some meta =>
                let ra1 :=
                  if meta.params.contains "user_id" && !containsKey resolved_args "user_id" then
                    dset resolved_args "user_id" (dget ctx2.data "user_id")
                  else resolved_args
                let filtered := filter_valid_args meta.params ra1
                match meta.func filtered with
                | .ok result =>
                    let ctx3 := store_result ctx2 (nm ++ "." ++ mName) result
                      (get_function_signature mName meta.params)
                    .recorded (mkSuccessEntry nm step.method result) ctx3
                | .error e =>
                    let msg := "Error ejecutando " ++ nm ++ "." ++ mName ++ ": " ++ e
                    .fatal (mkFatalEntry nm step.method msg) msg ctx2

/-- One step of the main loop: resolve the step tool name (empty tool list breaks
    unless the step is an LLM action), then process the step. -/
def execStep (reg : Registry) (orc : Oracle) (tool_list : List String) (ui : String) (step : Step)
    (i : Nat) (ctx : Ctx) : StepOut :=
  match tool_list with
  | [] =>
      match step.action == some "llm" with
      | true => execStepNamed reg orc ui step i ctx "llm_placeholder"
      | false => .broke (noToolEntry i)
  | t0 :: _ => execStepNamed reg orc ui step i ctx (step.tool.getD t0)

/-- The loop of execute_method_sequence over the remaining steps, with the
    running index and accumulated results. -/
inductive LoopOut where
  | done : List Val → Ctx → LoopOut
  | broke : List Val → Ctx → LoopOut
  | aborted : SeqResult → Ctx → LoopOut
  | raised : String → LoopOut
deriving Repr

/-- The main loop of execute_method_sequence. -/
def runSteps (reg : Registry) (orc : Oracle) (tool_list : List String) (ui : String) :
    List Step → Nat → List Val → Ctx → LoopOut
  | [], _, rs, ctx => .done rs ctx
  | step :: rest, i, rs, ctx =>
      match execStep reg orc tool_list ui step i ctx with
      | .recorded entry ctx1 => runSteps reg orc tool_list ui rest (i + 1) (rs ++ [entry]) ctx1
      | .fatal entry msg ctx1 =>
          .aborted
            { success := false, error := some msg, results := rs ++ [entry],
              stopped_at_step := some (i + 1) }
            ctx1
      | .broke entry => .broke (rs ++ [entry]) ctx
      | .raised e => .raised e

/-- Lines 172-174 of the source: attach the LLM service to the context when it is
    not connected yet. -/
def connect (ctx : Ctx) : Ctx :=
  if ctx.llm_connected then ctx else { ctx with llm_connected := true }

/-- execute_method_sequence.  A normal or broken loop exit reports overall
    success; an abort returns the partial results with the stopping index; an
    uncaught exception propagates as .error. -/
def execute_method_sequence (reg : Registry) (orc : Oracle) (tool_name : ToolArg)
    (sequence : List Step) (ui : String) (ctx : Ctx) : Except String (SeqResult × Ctx) :=
  let ctxC := connect ctx
  let tool_list := normalize_tools tool_name
  match runSteps reg orc tool_list ui sequence 0 [] ctxC with
  | .done rs c =>
      .ok ({ success := true, results := rs, context_data := some c.data,
             total_steps := some sequence.length }, c)
  | .broke rs c =>
      .ok ({ success := true, results := rs, context_data := some c.data,
             total_steps := some sequence.length }, c)
  | .aborted r c => .ok (r, c)
  | .raised e => .error e

/-! ### Basic dictionary and list lemmas -/

theorem alookup_dset_self (d : AList) (k : String) (v : Val) : alookup (dset d k v) k = some v := by
  induction d with
  | nil => simp [dset, alookup]
  | cons kv rest ih =>
      by_cases h : kv.1 = k
      · simp [dset, alookup, h]
      · simp [dset, alookup, h, ih]

theorem alookup_dset_ne (d : AList) (k' k : String) (v : Val) (h : k' ≠ k) :
    alookup (dset d k' v) k = alookup d k := by
  induction d with
  | nil => simp [dset, alookup, h]
  | cons kv rest ih =>
      obtain ⟨a, b⟩ := kv
      by_cases h1 : a = k'
      · subst h1
        simp [dset, alookup, h]
      · simp only [dset, h1, if_false, alookup]
        by_cases h2 : a = k <;> simp [h2, ih]

theorem containsKey_dset (d : AList) (k' k : String) (v : Val) :
    containsKey (dset d k' v) k = if k' = k then true else containsKey d k := by
  by_cases h : k' = k
  · simp [containsKey, h, alookup_dset_self]
  · simp [containsKey, h, alookup_dset_ne d k' k v h]

theorem clookup_cset_self (cs : List (String × Nat)) (p : String) (n : Nat) :
    clookup (cset cs p n) p = some n := by
  induction cs with
  | nil => simp [cset, clookup]
  | cons kv rest ih =>
      by_cases h : kv.1 = p
      · simp [cset, clookup, h]
      · simp [cset, clookup, h, ih]

/-- The previous accumulated list under a key (empty when the key is absent). -/
def oldListAt (d : AList) (k : String) : List Val :=
  match alookup d k with
  | some (.list l) => l
  | _ => []

theorem accum_extend_lookup_self (d : AList) (k : String) (items : List Val)
    (h : alookup d k = none ∨ ∃ l, alookup d k = some (.list l)) :
    alookup (accum_extend d k items) k = some (.list (oldListAt d k ++ items)) := by
  rcases h with h | ⟨l, h⟩
  · simp only [accum_extend, containsKey, h, Option.isSome_none, Bool.false_eq_true, if_false,
      alookup_dset_self]
    simp [alookup_dset_self, oldListAt, h]
  · simp only [accum_extend, containsKey, h, Option.isSome_some, if_true, alookup_dset_self,
      oldListAt]

theorem accum_extend_lookup_ne (d : AList) (k' : String) (items : List Val) (k : String)
    (h : k' ≠ k) : alookup (accum_extend d k' items) k = alookup d k := by
  unfold accum_extend
  by_cases hc : containsKey d k'
  · simp only [hc, if_true]
    cases halk : alookup d k' with
    | none => simp
    | some v => cases v <;> simp [alookup_dset_ne _ _ _ _ h]
  · simp only [hc, Bool.false_eq_true, if_false]
    cases halk : alookup (dset d k' (Val.list [])) k' with
    | none => simp [alookup_dset_ne _ _ _ _ h]
    | some v => cases v <;> simp [alookup_dset_ne _ _ _ _ h]

theorem pyUpdate_containsKey (e acc : AList) (k : String) :
    containsKey (pyUpdate acc e) k = (containsKey acc k || containsKey e k) := by
  induction e generalizing acc with
  | nil => simp [pyUpdate, containsKey, alookup]
  | cons kv rest ih =>
      simp only [pyUpdate, List.foldl_cons] at *
      rw [ih, containsKey_dset]
      by_cases h : kv.1 = k
      · simp [h, containsKey, alookup]
      · simp [h, containsKey, alookup, Bool.or_assoc]

theorem getD_append_left_val (l l' : List Val) (j : Nat) (h : j < l.length) (dv : Val) :
    (l ++ l').getD j dv = l.getD j dv := by
  simp [List.getD_eq_getElem?_getD, List.getElem?_append_left h]

theorem getD_snoc_self_val (l : List Val) (v dv : Val) : (l ++ [v]).getD l.length dv = v := by
  simp [List.getD_eq_getElem?_getD, List.getElem?_append_right]

theorem countP_total {α : Type} (l : List α) (p : α → Bool) :
    l.countP p + l.countP (fun a => !(p a)) = l.length := by
  induction l with
  | nil => simp
  | cons h t ih => by_cases hp : p h <;> simp [List.countP_cons, hp, ← ih] <;> omega

theorem str_append_ne_of_ne (s a b : String) (h : a ≠ b) : s ++ a ≠ s ++ b := by
  intro hc
  apply h
  have hd := congrArg String.data hc
  rw [String.data_append, String.data_append] at hd
  have := List.append_cancel_left hd
  cases a; cases b; simp_all

theorem str_append_ne_short (s t u : String) (h : u.data.length < t.data.length) : s ++ t ≠ u := by
  intro hc
  have := congrArg (fun x => x.data.length) hc
  simp only [String.data_append, List.length_append] at this
  omega

/-! ### Engine loop lemmas -/

/-- The success field of a result record. -/
def entry_success (e : Val) : Val :=
  match e with
  | .dict d => dget d "success"
  | _ => .vnone

theorem entry_success_mkFatalEntry (nm : String) (mopt : Option String) (msg : String) :
    entry_success (mkFatalEntry nm mopt msg) = Val.bool false := rfl

theorem runSteps_append (reg : Registry) (orc : Oracle) (tl : List String) (ui : String)
    (xs ys : List Step) (i : Nat) (rs : List Val) (ctx : Ctx) :
    runSteps reg orc tl ui (xs ++ ys) i rs ctx =
      (match runSteps reg orc tl ui xs i rs ctx with
       | .done rs' c' => runSteps reg orc tl ui ys (i + xs.length) rs' c'
       | o => o) := by
  induction xs generalizing i rs ctx with
  | nil => simp [runSteps]
  | cons x xt ih =>
      simp only [List.cons_append, runSteps]
      cases hex : execStep reg orc tl ui x i ctx with
      | recorded entry ctx1 =>
          dsimp only
          rw [show xt.append ys = xt ++ ys from rfl, ih]
          have harith : i + 1 + xt.length = i + (xt.length + 1) := by omega
          simp only [List.length_cons, harith]
      | fatal entry msg ctx1 => dsimp only
      | broke entry => dsimp only
      | raised e => dsimp only

theorem runSteps_done_length (reg : Registry) (orc : Oracle) (tl : List String) (ui : String)
    (xs : List Step) (i : Nat) (rs rs' : List Val) (ctx c' : Ctx)
    (h : runSteps reg orc tl ui xs i rs ctx = .done rs' c') :
    rs'.length = rs.length + xs.length := by
  induction xs generalizing i rs ctx with
  | nil =>
      simp only [runSteps] at h
      cases h
      simp
  | cons x xt ih =>
      simp only [runSteps] at h
      cases hex : execStep reg orc tl ui x i ctx with
      | recorded entry ctx1 =>
          rw [hex] at h
          have := ih _ _ _ h
          simp only [List.length_append, List.length_cons, List.length_nil] at this ⊢
          omega
      | fatal entry msg ctx1 => rw [hex] at h; cases h
      | broke entry => rw [hex] at h; cases h
      | raised e => rw [hex] at h; cases h

theorem execStepNamed_fatal_shape (reg : Registry) (orc : Oracle) (ui : String) (step : Step)
    (i : Nat) (ctx : Ctx) (nm : String) (entry : Val) (msg : String) (ctx' : Ctx)
    (h : execStepNamed reg orc ui step i ctx nm = .fatal entry msg ctx') :
    entry = mkFatalEntry nm step.method msg := by
  simp only [execStepNamed] at h
  repeat' split at h
  all_goals first
    | (cases h; rfl)
    | cases h

theorem execStep_fatal_shape (reg : Registry) (orc : Oracle) (tl : List String) (ui : String)
    (step : Step) (i : Nat) (ctx : Ctx) (entry : Val) (msg : String) (ctx' : Ctx)
    (h : execStep reg orc tl ui step i ctx = .fatal entry msg ctx') :
    ∃ nm, entry = mkFatalEntry nm step.method msg := by
  cases tl with
  | nil =>
      simp only [execStep] at h
      split at h
      · exact ⟨_, execStepNamed_fatal_shape _ _ _ _ _ _ _ _ _ _ h⟩
      · cases h
  | cons t0 tt => exact ⟨_, execStepNamed_fatal_shape _ _ _ _ _ _ _ _ _ _ h⟩

/-! ### C1: a raising tool-call invocation aborts the sequence immediately -/

/-- C1: for a plan of ToolCall steps whose first k steps complete the loop
    normally and whose step k+1 reaches the except branch (its invocation, or
    its method lookup inside the try, raises), execute_method_sequence returns
    success=false with exactly k+1 step records, the last one failed, and
    stopped_at_step = k+1; the returned value is identical for every suffix of
    later steps, so no step beyond the failing one is ever invoked. -/
theorem C1_toolcall_failure_aborts_immediately
    (reg : Registry) (orc : Oracle) (tn : ToolArg) (ui : String) (ctx0 : Ctx)
    (seq1 rest : List Step) (stepk : Step) (rs1 : List Val) (ctx1 : Ctx)
    (entry : Val) (msg : String) (ctxF : Ctx)
    (htc : ∀ s ∈ seq1 ++ [stepk], s.action ≠ some "llm" ∧ s.iterate = false)
    (h1 : runSteps reg orc (normalize_tools tn) ui seq1 0 [] (connect ctx0) = .done rs1 ctx1)
    (h2 : execStep reg orc (normalize_tools tn) ui stepk seq1.length ctx1 = .fatal entry msg ctxF) :
    execute_method_sequence reg orc tn (seq1 ++ stepk :: rest) ui ctx0
      = .ok ({ success := false, error := some msg, results := rs1 ++ [entry],
               stopped_at_step := some (seq1.length + 1) }, ctxF)
    ∧ rs1.length = seq1.length
    ∧ entry_success entry = Val.bool false
    ∧ execute_method_sequence reg orc tn (seq1 ++ stepk :: rest) ui ctx0
        = execute_method_sequence reg orc tn (seq1 ++ [stepk]) ui ctx0 := by
  have hlen : rs1.length = seq1.length := by
    have := runSteps_done_length reg orc (normalize_tools tn) ui seq1 0 [] rs1 (connect ctx0) ctx1 h1
    simpa using this
  obtain ⟨nm0, hshape⟩ := execStep_fatal_shape reg orc (normalize_tools tn) ui stepk seq1.length
    ctx1 entry msg ctxF h2
  have hesucc : entry_success entry = Val.bool false := by
    rw [hshape]
    exact entry_success_mkFatalEntry _ _ _
  have hrun : ∀ tail : List Step,
      runSteps reg orc (normalize_tools tn) ui (seq1 ++ stepk :: tail) 0 [] (connect ctx0)
        = .aborted
            { success := false, error := some msg, results := rs1 ++ [entry],
              stopped_at_step := some (seq1.length + 1) }
            ctxF := by
    intro tail
    rw [runSteps_append, h1]
    simp only [runSteps, Nat.zero_add, h2]
  constructor
  · simp only [execute_method_sequence]
    rw [hrun rest]
  refine ⟨hlen, hesucc, ?_⟩
  simp only [execute_method_sequence]
  rw [hrun rest, hrun []]

def c1reg : Registry :=
  [("t", [("okm", { params := ["x"], func := fun _ => .ok (.str "fine") }),
          ("boom", { params := [], func := fun _ => .error "kaput" })])]

def c1orc : Oracle := ⟨fun _ => .error "no llm", fun _ => .error "no json"⟩

def c1ok : Step := { method := some "okm", args := [("x", .str "1")] }

def c1boom : Step := { method := some "boom" }

def c1never : Step := { method := some "okm" }

/-- Witness for C1: a three-step plan whose second step raises yields exactly two
    step records, the second failed, stopped_at_step 2, and the same value as the
    plan truncated after the failing step. -/
theorem C1_witness :
    (match execute_method_sequence c1reg c1orc (.one "t") [c1ok, c1boom, c1never] "u" Ctx.init with
     | .ok (res, _) => res.success = false ∧ res.results.length = 2 ∧ res.stopped_at_step = some 2
        ∧ entry_success (res.results.getD 1 Val.vnone) = Val.bool false
     | .error _ => False)
    ∧ execute_method_sequence c1reg c1orc (.one "t") [c1ok, c1boom, c1never] "u" Ctx.init
      = execute_method_sequence c1reg c1orc (.one "t") [c1ok, c1boom] "u" Ctx.init := by
  obtain ⟨hrun, hlen, hent, hsuffix⟩ :=
    C1_toolcall_failure_aborts_immediately c1reg c1orc (.one "t") "u" Ctx.init
      [c1ok] [c1never] c1boom _ _ _ _ _ (by decide) rfl rfl
  simp only [List.cons_append, List.nil_append] at hrun hsuffix
  constructor
  · rw [hrun]
    exact ⟨rfl, rfl, rfl, rfl⟩
  · exact hsuffix

/-! ### C2: counter-based identifier resolution walks the list and clamps -/

/-- The list the id-key scan will settle on: the first of the candidate keys
    whose stored value is a non-empty list.  (A string value, returned directly
    by the source without touching the counter, stops the scan.) -/
def counterScan (data : AList) : List String → Option (List Val)
  | [] => none
  | k :: rest =>
      match alookup data k with
      | some (.list l) => if l.isEmpty then counterScan data rest else some l
      | some (.str _) => none
      | some _ => counterScan data rest
      | none => counterScan data rest

/-- The identifier list the counter strategy uses for a parameter, when any. -/
def counterIdList (data : AList) (p : String) : Option (List Val) :=
  counterScan data [str_dropRight p 3 ++ "_ids", str_dropRight p 3 ++ "s_ids", "ids"]

@[simp] theorem bump_counter_data (ctx : Ctx) (p : String) (n : Nat) :
    (bump_counter ctx p n).data = ctx.data := rfl

@[simp] theorem bump_counter_clookup (ctx : Ctx) (p : String) (n : Nat) :
    clookup (bump_counter ctx p n).resolution_counters p = some n :=
  clookup_cset_self _ _ _

theorem idKeyScan_of_counterScan (ctx : Ctx) (p : String) (ids : List Val) :
    ∀ keys : List String, counterScan ctx.data keys = some ids →
      idKeyScan ctx p keys
        = some (ids.getD (min ((clookup ctx.resolution_counters p).getD 0) (ids.length - 1))
              Val.vnone,
            bump_counter ctx p ((clookup ctx.resolution_counters p).getD 0 + 1))
  | [], h => by cases h
  | k :: rest, h => by
      simp only [counterScan] at h
      simp only [idKeyScan]
      cases halk : alookup ctx.data k with
      | none =>
          rw [halk] at h
          dsimp only at h ⊢
          exact idKeyScan_of_counterScan ctx p ids rest h
      | some v =>
          rw [halk] at h
          cases v with
          | list l =>
              cases l with
              | nil =>
                  simp only [List.isEmpty_nil, if_true] at h ⊢
                  exact idKeyScan_of_counterScan ctx p ids rest h
              | cons a t =>
                  simp only [List.isEmpty_cons, Bool.false_eq_true, if_false] at h ⊢
                  cases h
                  by_cases hc : (clookup ctx.resolution_counters p).getD 0 < (a :: t).length
                  · rw [if_pos hc, Nat.min_eq_left (by simp only [List.length_cons] at hc ⊢; omega)]
                  · rw [if_neg hc, Nat.min_eq_right (by simp only [List.length_cons] at hc ⊢; omega)]
          | str s => dsimp only at h; cases h
          | vnone => dsimp only at h ⊢; exact idKeyScan_of_counterScan ctx p ids rest h
          | bool b => dsimp only at h ⊢; exact idKeyScan_of_counterScan ctx p ids rest h
          | nat m => dsimp only at h ⊢; exact idKeyScan_of_counterScan ctx p ids rest h
          | dict d => dsimp only at h ⊢; exact idKeyScan_of_counterScan ctx p ids rest h

/-- One counter-based resolution: with a non-empty identifier list in scope, the
    call returns the element at the clamped counter index and increments the
    counter. -/
theorem resolve_id_spec (ctx : Ctx) (p : String) (ids : List Val)
    (hend : str_endswith p "_id" = true)
    (hids : counterIdList ctx.data p = some ids) :
    resolve_id_parameter ctx p
      = (ids.getD (min ((clookup ctx.resolution_counters p).getD 0) (ids.length - 1)) Val.vnone,
         bump_counter ctx p ((clookup ctx.resolution_counters p).getD 0 + 1)) := by
  simp only [resolve_id_parameter, hend, Bool.true_eq_false, if_false]
  rw [idKeyScan_of_counterScan ctx p ids _ hids]

/-- n successive calls of the identifier resolver for one parameter, with the
    threaded context. -/
def resolveIdCalls (ctx : Ctx) (p : String) : Nat → List Val × Ctx
  | 0 => ([], ctx)
  | n + 1 =>
      let prev := resolveIdCalls ctx p n
      let r := resolve_id_parameter prev.2 p
      (prev.1 ++ [r.1], r.2)

theorem resolveIdCalls_spec (ctx : Ctx) (p : String) (ids : List Val)
    (hend : str_endswith p "_id" = true)
    (hids : counterIdList ctx.data p = some ids)
    (hfresh : clookup ctx.resolution_counters p = none) : ∀ n : Nat,
    (resolveIdCalls ctx p n).2.data = ctx.data
    ∧ clookup (resolveIdCalls ctx p n).2.resolution_counters p
        = (if n = 0 then none else some n)
    ∧ (resolveIdCalls ctx p n).1.length = n
    ∧ ∀ j, j < n → (resolveIdCalls ctx p n).1.getD j Val.vnone
        = ids.getD (min j (ids.length - 1)) Val.vnone := by
  intro n
  induction n with
  | zero => simp [resolveIdCalls, hfresh]
  | succ n ih =>
      obtain ⟨hdata, hctr, hlen, hvals⟩ := ih
      have hstep := resolve_id_spec (resolveIdCalls ctx p n).2 p ids hend
        (by rw [hdata]; exact hids)
      have hc : (clookup (resolveIdCalls ctx p n).2.resolution_counters p).getD 0 = n := by
        rw [hctr]
        by_cases h0 : n = 0 <;> simp [h0]
      rw [hc] at hstep
      refine ⟨?_, ?_, ?_, ?_⟩
      · simp only [resolveIdCalls]
        rw [hstep]
        simp [hdata]
      · simp only [resolveIdCalls]
        rw [hstep]
        simp [clookup_cset_self]
      · simp only [resolveIdCalls]
        simp [hlen]
      · intro j hj
        simp only [resolveIdCalls]
        rcases Nat.lt_succ_iff_lt_or_eq.mp hj with hlt | heq
        · rw [getD_append_left_val _ _ j (by omega)]
          exact hvals j hlt
        · subst heq
          rw [hstep]
          have : (resolveIdCalls ctx p j).1.length = j := hlen
          calc ((resolveIdCalls ctx p j).1 ++
                  [ids.getD (min j (ids.length - 1)) Val.vnone]).getD j Val.vnone
              = ((resolveIdCalls ctx p j).1 ++
                  [ids.getD (min j (ids.length - 1)) Val.vnone]).getD
                    (resolveIdCalls ctx p j).1.length Val.vnone := by rw [this]
            _ = ids.getD (min j (ids.length - 1)) Val.vnone := getD_snoc_self_val _ _ _

/-- C2: when the context holds a non-empty identifier list for an _id-suffixed
    parameter (under the prefix, pluralised-prefix or generic ids key) and the
    counter starts fresh, the j-th of n successive resolutions returns the
    element at index min j (L-1) — indices 0, 1, 2, ... and then the last element
    once the list is exhausted, never out of range — the counter equals j after
    j calls (strictly increasing), and the context data is never modified by the
    resolutions. -/
theorem C2_counter_resolution (ctx : Ctx) (p : String) (ids : List Val) (n : Nat)
    (hend : str_endswith p "_id" = true)
    (hids : counterIdList ctx.data p = some ids)
    (hfresh : clookup ctx.resolution_counters p = none) :
    (∀ j, j < n → (resolveIdCalls ctx p n).1.getD j Val.vnone
        = ids.getD (min j (ids.length - 1)) Val.vnone)
    ∧ (∀ j, 1 ≤ j → clookup (resolveIdCalls ctx p j).2.resolution_counters p = some j)
    ∧ (resolveIdCalls ctx p n).2.data = ctx.data := by
  refine ⟨(resolveIdCalls_spec ctx p ids hend hids hfresh n).2.2.2, ?_,
    (resolveIdCalls_spec ctx p ids hend hids hfresh n).1⟩
  intro j h1
  have := (resolveIdCalls_spec ctx p ids hend hids hfresh j).2.1
  rw [this]
  have : j ≠ 0 := by omega
  simp [this]

def c2ctx : Ctx := { Ctx.init with data := [("file_ids", .list [.str "a", .str "b", .str "c"])] }

/-- Witness for C2: three identifiers, four successive resolutions of file_id
    give a, b, c, then c again (clamped); the counter reads 3 after three calls
    and 4 after four. -/
theorem C2_witness :
    (resolveIdCalls c2ctx "file_id" 4).1.getD 0 Val.vnone = Val.str "a"
    ∧ (resolveIdCalls c2ctx "file_id" 4).1.getD 1 Val.vnone = Val.str "b"
    ∧ (resolveIdCalls c2ctx "file_id" 4).1.getD 2 Val.vnone = Val.str "c"
    ∧ (resolveIdCalls c2ctx "file_id" 4).1.getD 3 Val.vnone = Val.str "c"
    ∧ clookup (resolveIdCalls c2ctx "file_id" 3).2.resolution_counters "file_id" = some 3
    ∧ clookup (resolveIdCalls c2ctx "file_id" 4).2.resolution_counters "file_id" = some 4 := by
  have h := C2_counter_resolution c2ctx "file_id" [.str "a", .str "b", .str "c"] 4 rfl rfl rfl
  refine ⟨?_, ?_, ?_, ?_, h.2.1 3 (by omega), h.2.1 4 (by omega)⟩
  · simpa using h.1 0 (by omega)
  · simpa using h.1 1 (by omega)
  · simpa using h.1 2 (by omega)
  · simpa using h.1 3 (by omega)

/-! ### C3: tool-not-found is non-fatal, even for the sole step -/

def c3reg : Registry := []

def c3orc : Oracle := ⟨fun _ => .error "no llm", fun _ => .error "no json"⟩

def c3step : Step := { tool := some "ghost", method := some "m" }

/-- C3 counterexample: for a plan whose sole step references a tool absent from
    the registry, the claim demands overall success=false, but
    execute_method_sequence records the failed step and still reports overall
    success=true. -/
theorem C3_counterexample :
    (match execute_method_sequence c3reg c3orc (.one "ghost") [c3step] "u" Ctx.init with
     | .ok (res, _) => res.success = true ∧ res.results = [toolNotFoundEntry 0 "ghost"]
        ∧ entry_success (toolNotFoundEntry 0 "ghost") = Val.bool false
     | .error _ => False) := by
  exact ⟨rfl, rfl, rfl⟩

/-- C3 (amended): a step referencing a tool name not in the registry (or mapped
    to an empty tool) appends a failed StepResult and execution continues with
    the next step, in every position; when it is the sole step of the plan the
    sequence still reports overall success=true — the code has no sole-step
    exception. -/
theorem C3_tool_not_found_non_fatal
    (reg : Registry) (orc : Oracle) (ui : String) (step : Step) (nm : String)
    (hnm : rlookup reg nm = none ∨ rlookup reg nm = some [])
    (hph : nm ≠ "llm_placeholder") :
    (∀ (i : Nat) (ctx : Ctx),
        execStepNamed reg orc ui step i ctx nm = .recorded (toolNotFoundEntry i nm) ctx)
    ∧ (∀ (i : Nat) (ctx : Ctx) (rest : List Step) (rs : List Val) (t0 : String)
          (ttl : List String), step.tool.getD t0 = nm →
        runSteps reg orc (t0 :: ttl) ui (step :: rest) i rs ctx
          = runSteps reg orc (t0 :: ttl) ui rest (i + 1) (rs ++ [toolNotFoundEntry i nm]) ctx)
    ∧ (∀ (tn : ToolArg) (t0 : String) (ttl : List String) (ctx0 : Ctx),
          normalize_tools tn = t0 :: ttl → step.tool.getD t0 = nm →
        execute_method_sequence reg orc tn [step] ui ctx0
          = .ok ({ success := true, results := [toolNotFoundEntry 0 nm],
                   context_data := some (connect ctx0).data, total_steps := some 1 },
                 connect ctx0)) := by
  have hmiss : (match rlookup reg nm with | none => true | some t => t.isEmpty) = true := by
    rcases hnm with h | h <;> simp [h]
  have hdec : decide (nm ≠ "llm_placeholder") = true := by simp [hph]
  have hstep : ∀ (i : Nat) (ctx : Ctx),
      execStepNamed reg orc ui step i ctx nm = .recorded (toolNotFoundEntry i nm) ctx := by
    intro i ctx
    simp only [execStepNamed, hmiss, hdec, Bool.and_self]
  have hloop : ∀ (i : Nat) (ctx : Ctx) (rest : List Step) (rs : List Val) (t0 : String)
      (ttl : List String), step.tool.getD t0 = nm →
      runSteps reg orc (t0 :: ttl) ui (step :: rest) i rs ctx
        = runSteps reg orc (t0 :: ttl) ui rest (i + 1) (rs ++ [toolNotFoundEntry i nm]) ctx := by
    intro i ctx rest rs t0 ttl htool
    simp only [runSteps, execStep, htool, hstep i ctx]
  refine ⟨hstep, hloop, ?_⟩
  intro tn t0 ttl ctx0 hnorm htool
  simp only [execute_method_sequence, hnorm]
  rw [hloop 0 (connect ctx0) [] [] t0 ttl htool]
  simp only [runSteps, List.nil_append, List.length_singleton]

/-- Witness for C3 (amended): concrete sole-step run with a missing tool, via the
    amended theorem. -/
theorem C3_witness :
    execute_method_sequence c3reg c3orc (.one "ghost") [c3step] "u" Ctx.init
      = .ok ({ success := true, results := [toolNotFoundEntry 0 "ghost"],
               context_data := some [], total_steps := some 1 }, connect Ctx.init) := by
  have h := (C3_tool_not_found_non_fatal c3reg c3orc "u" c3step "ghost" (Or.inl rfl)
    (by decide)).2.2 (.one "ghost") "ghost" [] Ctx.init rfl rfl
  simpa using h

/-! ### C4: iteration processes every element and reports M-F of M -/

theorem iterLoop_spec (meta : Method) (m : String) (bargs : AList) :
    ∀ (arr : List Val) (i : Nat) (ctx : Ctx),
      (iterLoop meta m bargs arr i ctx).1.length = arr.length
      ∧ ∀ j, j < arr.length → ∃ d,
          (iterLoop meta m bargs arr i ctx).1.getD j Val.vnone = Val.dict d
          ∧ alookup d "index" = some (.nat (i + j))
          ∧ (alookup d "success" = some (.bool true)
             ∨ (alookup d "success" = some (.bool false)
                ∧ ∃ e, alookup d "error" = some (.str e))) := by
  intro arr
  induction arr with
  | nil =>
      intro i ctx
      refine ⟨rfl, ?_⟩
      intro j hj
      simp at hj
  | cons item rest ih =>
      intro i ctx
      simp only [iterLoop]
      cases hres : meta.func (filter_valid_args meta.params
          (resolveIterArgs ctx (substitute_iterate item bargs)).1) with
      | ok result =>
          dsimp only
          constructor
          · simp [(ih (i + 1) _).1]
          · intro j hj
            cases j with
            | zero =>
                refine ⟨_, rfl, ?_, Or.inl ?_⟩
                · simp [alookup]
                · simp [alookup]
            | succ j' =>
                have hlt : j' < rest.length := by simpa using hj
                obtain ⟨d, hd, hidx, hsucc⟩ := (ih (i + 1) _).2 j' hlt
                refine ⟨d, by simpa using hd, ?_, hsucc⟩
                have harith : i + 1 + j' = i + (j' + 1) := by omega
                rw [harith] at hidx
                exact hidx
      | error e =>
          dsimp only
          constructor
          · simp [(ih (i + 1) _).1]
          · intro j hj
            cases j with
            | zero =>
                refine ⟨_, rfl, ?_,
                  Or.inr ⟨?_, ⟨"Error en iteración " ++ toString i ++ ": " ++ e, ?_⟩⟩⟩
                · simp [alookup]
                · simp [alookup]
                · simp [alookup]
            | succ j' =>
                have hlt : j' < rest.length := by simpa using hj
                obtain ⟨d, hd, hidx, hsucc⟩ := (ih (i + 1) _).2 j' hlt
                refine ⟨d, by simpa using hd, ?_, hsucc⟩
                have harith : i + 1 + j' = i + (j' + 1) := by omega
                rw [harith] at hidx
                exact hidx

/-- C4: an Iteration step over a resolved list of M elements processes all M
    elements — a raising element invocation is recorded individually (a failed
    entry with its index and error text) and never aborts the remaining
    elements — and the step returns success=true with the summary
    "Completadas (M-F)/M iteraciones" where F is the number of failed
    elements. -/
theorem C4_iteration_processes_all_elements
    (step : Step) (ctx : Ctx) (tool : Tool) (ui : String) (src m : String)
    (meta : Method) (arr : List Val)
    (hsrc : step.source = some src) (hm : step.method = some m)
    (harr : extract_iterable (resolve_parameter ctx src).1 src = .ok arr)
    (hmeta : tlookup tool m = some meta) :
    (∃ ctxF, execute_iteration_step step ctx (some tool) ui
        = .ok (.dict [("success", .bool true),
            ("result", .str ("Completadas "
              ++ toString (arr.length - (iterLoop meta m step.args arr 0
                    (resolve_parameter ctx src).2).1.countP (fun e => !(entryTruthySuccess e)))
              ++ "/" ++ toString arr.length ++ " iteraciones")),
            ("iteration_results", .list (iterLoop meta m step.args arr 0
                (resolve_parameter ctx src).2).1)], ctxF))
    ∧ (iterLoop meta m step.args arr 0 (resolve_parameter ctx src).2).1.length = arr.length
    ∧ (∀ j, j < arr.length → ∃ d,
        (iterLoop meta m step.args arr 0 (resolve_parameter ctx src).2).1.getD j Val.vnone
          = Val.dict d
        ∧ alookup d "index" = some (.nat j)
        ∧ (alookup d "success" = some (.bool true)
           ∨ (alookup d "success" = some (.bool false)
              ∧ ∃ e, alookup d "error" = some (.str e)))) := by
  obtain ⟨hlen, hshape⟩ := iterLoop_spec meta m step.args arr 0 (resolve_parameter ctx src).2
  have hcount : (iterLoop meta m step.args arr 0 (resolve_parameter ctx src).2).1.countP
        entryTruthySuccess
      = arr.length - (iterLoop meta m step.args arr 0
          (resolve_parameter ctx src).2).1.countP (fun e => !(entryTruthySuccess e)) := by
    have := countP_total (iterLoop meta m step.args arr 0 (resolve_parameter ctx src).2).1
      entryTruthySuccess
    omega
  refine ⟨?_, hlen, by simpa using hshape⟩
  simp only [execute_iteration_step, hsrc, harr, hm, hmeta, hcount]
  exact ⟨_, rfl⟩

def c4tool : Tool :=
  [("proc", { params := ["x"], func := fun args =>
      if alookup args "x" = some (.str "bad") then .error "boom" else .ok (.str "fine") })]

def c4step : Step :=
  { method := some "proc", iterate := true, source := some "items",
    args := [("x", .str "iterate_value")] }

def c4ctx : Ctx := { Ctx.init with data := [("items", .list [.str "a", .str "bad", .str "c"])] }

/-- Witness for C4: three elements with one raising invocation yield a
    success=true aggregate reporting 2/3 completed. -/
theorem C4_witness :
    (match execute_iteration_step c4step c4ctx (some c4tool) "u" with
     | .ok (d, _) =>
        (match d with
         | .dict f => alookup f "result" = some (.str "Completadas 2/3 iteraciones")
            ∧ alookup f "success" = some (.bool true)
         | _ => False)
     | .error _ => False) := by
  obtain ⟨⟨ctxF, hrun⟩, hlen, hshape⟩ := C4_iteration_processes_all_elements
    c4step c4ctx c4tool "u" "items" "proc" _ _ rfl rfl rfl rfl
  rw [hrun]
  exact ⟨rfl, rfl⟩

/-! ### C5: additive versus overwriting derived keys in store_result -/

/-- C5 counterexample: the claim says accumulated identifier lists are additive
    for every accepted result shape, including bare collections; but when two
    bare-list results are stored in sequence, _extract_from_list overwrites the
    ids and method-ids keys — the identifier "a" of the first store is gone. -/
theorem C5_counterexample :
    alookup (store_result Ctx.init "m" (.list [.dict [("id", .str "a")]])).data "ids"
      = some (.list [Val.str "a"])
    ∧ alookup (store_result (store_result Ctx.init "m" (.list [.dict [("id", .str "a")]]))
        "m" (.list [.dict [("id", .str "b")]])).data "ids"
      = some (.list [Val.str "b"])
    ∧ alookup (store_result (store_result Ctx.init "m" (.list [.dict [("id", .str "a")]]))
        "m" (.list [.dict [("id", .str "b")]])).data "m_ids"
      = some (.list [Val.str "b"]) := by
  exact ⟨rfl, rfl, rfl⟩

/-- The ids-field predicate on a dict entry, as oldListAt depends only on the
    stored binding. -/
theorem oldListAt_congr (d d' : AList) (k : String) (h : alookup d k = alookup d' k) :
    oldListAt d k = oldListAt d' k := by
  unfold oldListAt
  rw [h]

/-- C5 (amended): for object-shaped results the derived identifier and object
    lists are additive — storing appends the new identifiers and items to the
    accumulated lists — and last-X keys such as the method-qualified _result key
    are overwritten by every store; but for results that are bare collections,
    _extract_from_list assigns the ids key directly, replacing whatever was
    accumulated before (overwrite, not append). -/
theorem C5_store_result_key_semantics :
    (∀ (ctx : Ctx) (m key : String) (items : List Val),
      headDictWithId items = true →
      str_lower key ≠ "content" → str_lower key ≠ "body" →
      str_lower key ≠ "text" → str_lower key ≠ "message" →
      (alookup ctx.data (key ++ "_ids") = none
        ∨ ∃ l, alookup ctx.data (key ++ "_ids") = some (.list l)) →
      (alookup ctx.data (key ++ "_data") = none
        ∨ ∃ l, alookup ctx.data (key ++ "_data") = some (.list l)) →
      m ++ "_" ++ key ++ "_ids" ≠ key ++ "_ids" →
      key ++ "_data" ≠ key ++ "_ids" →
      m ++ "_" ++ key ++ "_data" ≠ key ++ "_ids" →
      m ++ "_results" ≠ key ++ "_ids" →
      m ++ "_result" ≠ key ++ "_ids" →
      m ++ "_" ++ key ++ "_ids" ≠ key ++ "_data" →
      m ++ "_" ++ key ++ "_data" ≠ key ++ "_data" →
      m ++ "_results" ≠ key ++ "_data" →
      m ++ "_result" ≠ key ++ "_data" →
      alookup (store_result ctx m (.dict [(key, .list items)])).data (key ++ "_ids")
        = some (.list (oldListAt ctx.data (key ++ "_ids") ++ extract_ids items))
      ∧ alookup (store_result ctx m (.dict [(key, .list items)])).data (key ++ "_data")
        = some (.list (oldListAt ctx.data (key ++ "_data") ++ items)))
    ∧ (∀ (ctx : Ctx) (m : String) (r : Val),
        alookup (store_result ctx m r).data (m ++ "_result") = some r)
    ∧ (∀ (ctx : Ctx) (m : String) (d0 : AList) (tl : List Val),
        containsKey d0 "id" = true →
        m ++ "_list" ≠ "ids" → m ++ "_results" ≠ "ids" → m ++ "_result" ≠ "ids" →
        alookup (store_result ctx m (.list (Val.dict d0 :: tl))).data "ids"
          = some (.list (extract_ids (Val.dict d0 :: tl)))) := by
  refine ⟨?_, ?_, ?_⟩
  · intro ctx m key items hhead hk1 hk2 hk3 hk4 hshape_i hshape_d hne1 hne2 hne3 hne4 hne5
      hne9 hne6 hne7 hne8
    cases items with
    | nil => simp [headDictWithId] at hhead
    | cons it0 tl =>
        simp only [store_result, analyze_and_store_data, extract_from_dict, efd_loop1,
          efd_field, hhead, if_true, accum_append]
        have hfind1 : List.find?
            (fun kv => str_lower kv.1 = "content" || str_lower kv.1 = "body")
            [(key, Val.list (it0 :: tl))] = none := by
          simp [List.find?, hk1, hk2]
        have hfind2 : List.find?
            (fun kv => str_lower kv.1 = "text" || str_lower kv.1 = "message")
            [(key, Val.list (it0 :: tl))] = none := by
          simp [List.find?, hk3, hk4]
        rw [hfind1, hfind2]
        constructor
        · rw [alookup_dset_ne _ _ _ _ hne5, accum_extend_lookup_ne _ _ _ _ hne4,
            accum_extend_lookup_ne _ _ _ _ hne3, accum_extend_lookup_ne _ _ _ _ hne2,
            accum_extend_lookup_ne _ _ _ _ hne1, accum_extend_lookup_self _ _ _ hshape_i]
        · have hmid : alookup (accum_extend (accum_extend ctx.data (key ++ "_ids")
              (extract_ids (it0 :: tl))) (m ++ "_" ++ key ++ "_ids") (extract_ids (it0 :: tl)))
              (key ++ "_data") = alookup ctx.data (key ++ "_data") := by
            rw [accum_extend_lookup_ne _ _ _ _ hne9,
              accum_extend_lookup_ne _ _ _ _ (Ne.symm hne2)]
          rw [alookup_dset_ne _ _ _ _ hne8, accum_extend_lookup_ne _ _ _ _ hne7,
            accum_extend_lookup_ne _ _ _ _ hne6,
            accum_extend_lookup_self _ _ _ (by rw [hmid] at *; exact hshape_d.imp id id)]
          rw [oldListAt_congr _ _ _ hmid]
  · intro ctx m r
    simp only [store_result, analyze_and_store_data]
    exact alookup_dset_self _ _ _
  · intro ctx m d0 tl hid hnl hnr hnr2
    simp only [store_result, analyze_and_store_data, extract_from_list, hid, if_true,
      accum_append]
    rw [alookup_dset_ne _ _ _ _ hnr2, accum_extend_lookup_ne _ _ _ _ hnr,
      alookup_dset_ne _ _ _ _ hnl, alookup_dset_self]

/-- Witness for C5 (amended): an object-shaped result appends to an existing
    accumulated identifier list; a scalar store overwrites the method _result
    key; a bare-list store replaces the ids key. -/
theorem C5_witness :
    alookup (store_result { Ctx.init with data := [("files_ids", Val.list [Val.str "a"])] }
        "drive.list" (.dict [("files", .list [.dict [("id", .str "b")]])])).data "files_ids"
      = some (.list [Val.str "a", Val.str "b"])
    ∧ alookup (store_result Ctx.init "gmail.send" (.str "done")).data "gmail.send_result"
      = some (.str "done")
    ∧ alookup (store_result Ctx.init "mm" (.list [.dict [("id", .str "z")]])).data "ids"
      = some (.list [Val.str "z"]) := by
  obtain ⟨h1, h2, h3⟩ := C5_store_result_key_semantics
  refine ⟨?_, h2 Ctx.init "gmail.send" (.str "done"), ?_⟩
  · have := h1 { Ctx.init with data := [("files_ids", Val.list [Val.str "a"])] }
      "drive.list" "files" [.dict [("id", .str "b")]] (by decide) (by decide) (by decide)
      (by decide) (by decide) (Or.inr ⟨[Val.str "a"], rfl⟩) (Or.inl rfl) (by decide) (by decide)
      (by decide) (by decide) (by decide) (by decide) (by decide) (by decide) (by decide)
    simpa [oldListAt, alookup, extract_ids] using this.1
  · have := h3 Ctx.init "mm" [("id", Val.str "z")] [] (by decide) (by decide) (by decide)
      (by decide)
    simpa [extract_ids, alookup] using this

/-! ### C6: unresolved parameters are dropped, resolved ones pass unchanged -/

/-- C6: filter_valid_args never passes a None-valued argument (an unresolved
    parameter is omitted from the call, not sent as null), keeps exactly the
    arguments that are named in the signature and non-None, unchanged and in
    order; and in the final-argument loop a dynamic parameter that no strategy
    resolves (the resolver returns None and the LLM pass did not produce it)
    is built as a None entry, which the filter then drops.  The loop is
    compositional over argument lists, so this applies to the parameter's
    position in any argument set. -/
theorem C6_unresolved_params_dropped :
    (∀ (params : List String) (args : AList) (k : String),
        (k, Val.vnone) ∉ filter_valid_args params args)
    ∧ (∀ (params : List String) (args : AList) (k : String) (v : Val),
        (k, v) ∈ filter_valid_args params args
          ↔ ((k, v) ∈ args ∧ params.contains k = true ∧ v ≠ Val.vnone))
    ∧ (∀ (orc : Oracle) (dyn : AList) (ui : String) (ctx : Ctx) (xs ys : AList),
        resolveStepArgs orc dyn ui ctx (xs ++ ys)
          = ((resolveStepArgs orc dyn ui ctx xs).1
              ++ (resolveStepArgs orc dyn ui (resolveStepArgs orc dyn ui ctx xs).2 ys).1,
             (resolveStepArgs orc dyn ui (resolveStepArgs orc dyn ui ctx xs).2 ys).2))
    ∧ (∀ (orc : Oracle) (dyn : AList) (ui : String) (ctx : Ctx) (p : String),
        containsKey dyn p = false → (resolve_parameter ctx p).1 = Val.vnone →
        resolveStepArgs orc dyn ui ctx [(p, Val.str "dynamic")]
          = ([(p, Val.vnone)], (resolve_parameter ctx p).2)) := by
  refine ⟨?_, ?_, ?_, ?_⟩
  · intro params args k hmem
    simp [filter_valid_args, List.mem_filter] at hmem
  · intro params args k v
    simp [filter_valid_args, List.mem_filter]
  · intro orc dyn ui ctx xs ys
    induction xs generalizing ctx with
    | nil => simp [resolveStepArgs]
    | cons kv rest ih =>
        obtain ⟨p, v⟩ := kv
        by_cases h1 : containsKey dyn p
        · simp only [List.cons_append, resolveStepArgs, h1, if_true]
          rw [show rest.append ys = rest ++ ys from rfl, ih]
        · by_cases h2 : v = Val.str "dynamic"
          · simp only [List.cons_append, resolveStepArgs, h1, Bool.false_eq_true, if_false,
              h2, if_true]
            rw [show rest.append ys = rest ++ ys from rfl, ih]
          · simp only [List.cons_append, resolveStepArgs, h1, Bool.false_eq_true, if_false,
              h2]
            rw [show rest.append ys = rest ++ ys from rfl, ih]
  · intro orc dyn ui ctx p hdyn hres
    simp only [resolveStepArgs, hdyn, Bool.false_eq_true, if_false, if_true, hres]

/-- Witness for C6: a None-valued argument is dropped by the filter while the
    resolved ones pass; an unresolvable dynamic parameter builds a None entry. -/
theorem C6_witness :
    ((("b" : String), Val.vnone) ∉ filter_valid_args ["a", "b"] [("a", .str "1"), ("b", Val.vnone)])
    ∧ ((("a" : String), Val.str "1") ∈ filter_valid_args ["a", "b"]
        [("a", .str "1"), ("b", Val.vnone)])
    ∧ resolveStepArgs c3orc [] "u" Ctx.init [("to", Val.str "dynamic")]
        = ([("to", Val.vnone)], Ctx.init) := by
  obtain ⟨ha, hb, hc, hd⟩ := C6_unresolved_params_dropped
  refine ⟨ha ["a", "b"] [("a", .str "1"), ("b", Val.vnone)] "b", ?_, ?_⟩
  · exact (hb ["a", "b"] [("a", .str "1"), ("b", Val.vnone)] "a" (.str "1")).mpr (by decide)
  · have := hd c3orc [] "u" Ctx.init "to" rfl rfl
    simpa using this

/-! ### C7: error semantics of the LLM-assisted argument resolver -/

def c7orc : Oracle := ⟨fun _ => .ok "resp", fun _ => .ok (.dict [("garbage", .str "x")])⟩

def c7ctx : Ctx := { Ctx.init with llm_connected := true }

/-- C7 counterexample: the claim says the resolver raises whenever the reply is
    not a well-formed object keyed exactly by the requested parameter names; but
    a JSON object reply keyed by a name that was never requested ("garbage"
    instead of "to") is accepted without any error and merged into the resolved
    arguments — the source never validates the reply keys. -/
theorem C7_counterexample :
    resolve_dynamic_arguments_with_llm c7orc c7ctx "send_email" [("to", .str "dynamic")] "u"
      = .ok ([("garbage", .str "x")], c7ctx) := by rfl

theorem counterPhase_no_id (ctx : Ctx) : ∀ dyn : AList,
    (∀ kv ∈ dyn, str_endswith kv.1 "_id" = false) →
    counterPhase ctx dyn = ([], dyn.map (fun kv => (kv.1, Val.str "dynamic")), ctx)
  | [], _ => rfl
  | kv :: rest, h => by
      have hk : str_endswith kv.1 "_id" = false := h kv (by simp)
      simp only [counterPhase, hk, Bool.false_eq_true, if_false, List.map_cons]
      rw [counterPhase_no_id ctx rest (fun x hx => h x (by simp [hx]))]

/-- C7 (amended): when the dynamic parameters all go to the LLM, the resolver
    propagates an error exactly when the LLM call fails, its reply is not
    parseable JSON, or the parsed value is not an object; an object reply is
    accepted with NO validation of its keys — requested keys it omits are simply
    absent from the result (unresolved, not an error), and unrequested keys are
    merged in. -/
theorem C7_llm_resolution_error_semantics
    (orc : Oracle) (ctx : Ctx) (m ui : String) (args : AList)
    (hllm : ctx.llm_connected = true)
    (hdyn : dynamicParams args ≠ [])
    (hnid : ∀ kv ∈ dynamicParams args, str_endswith kv.1 "_id" = false) :
    (∀ e, orc.call_llm (resolver_prompt m ((dynamicParams args).map (fun kv => kv.1))
          (context_snapshot ctx.data) ui) = .error e →
        resolve_dynamic_arguments_with_llm orc ctx m args ui
          = .error ("Error resolviendo argumentos dinámicos con LLM: " ++ e))
    ∧ (∀ raw e, orc.call_llm (resolver_prompt m ((dynamicParams args).map (fun kv => kv.1))
          (context_snapshot ctx.data) ui) = .ok raw → orc.json_loads raw = .error e →
        resolve_dynamic_arguments_with_llm orc ctx m args ui
          = .error ("Error resolviendo argumentos dinámicos con LLM: " ++ e))
    ∧ (∀ raw v, orc.call_llm (resolver_prompt m ((dynamicParams args).map (fun kv => kv.1))
          (context_snapshot ctx.data) ui) = .ok raw → orc.json_loads raw = .ok v →
        (∀ d, v ≠ Val.dict d) →
        resolve_dynamic_arguments_with_llm orc ctx m args ui
          = .error "Error resolviendo argumentos dinámicos con LLM: El LLM no devolvió un objeto JSON")
    ∧ (∀ raw d, orc.call_llm (resolver_prompt m ((dynamicParams args).map (fun kv => kv.1))
          (context_snapshot ctx.data) ui) = .ok raw → orc.json_loads raw = .ok (.dict d) →
        resolve_dynamic_arguments_with_llm orc ctx m args ui = .ok (pyUpdate [] d, ctx)
        ∧ ∀ k, containsKey d k = false → containsKey (pyUpdate [] d) k = false) := by
  have hcp := counterPhase_no_id ctx (dynamicParams args) hnid
  have hde : (dynamicParams args).isEmpty = false := by
    rw [Bool.eq_false_iff]
    intro hc
    exact hdyn (List.isEmpty_iff.mp hc)
  have hre : ((dynamicParams args).map (fun kv => (kv.1, Val.str "dynamic"))).isEmpty = false := by
    rw [Bool.eq_false_iff]
    intro hc
    have := List.isEmpty_iff.mp hc
    simp only [List.map_eq_nil_iff] at this
    exact hdyn this
  have hmm : ((dynamicParams args).map (fun kv => (kv.1, Val.str "dynamic"))).map
        (fun kv => kv.1)
      = (dynamicParams args).map (fun kv => kv.1) := by
    simp [List.map_map]
  refine ⟨?_, ?_, ?_, ?_⟩
  · intro e hcall
    simp only [resolve_dynamic_arguments_with_llm, hde, Bool.false_eq_true, if_false, hllm,
      hcp, hre, hmm, hcall, Bool.true_eq_false]
  · intro raw e hcall hjson
    simp only [resolve_dynamic_arguments_with_llm, hde, Bool.false_eq_true, if_false, hllm,
      hcp, hre, hmm, hcall, hjson, Bool.true_eq_false]
  · intro raw v hcall hjson hnd
    simp only [resolve_dynamic_arguments_with_llm, hde, Bool.false_eq_true, if_false, hllm,
      hcp, hre, hmm, hcall, hjson, Bool.true_eq_false]
  · intro raw d hcall hjson
    constructor
    · simp only [resolve_dynamic_arguments_with_llm, hde, Bool.false_eq_true, if_false, hllm,
        hcp, hre, hmm, hcall, hjson, Bool.true_eq_false]
    · intro k hk
      have hnone : alookup d k = none := by
        cases halk : alookup d k with
        | none => rfl
        | some v => rw [containsKey, halk] at hk; simp at hk
      rw [pyUpdate_containsKey]
      simp [containsKey, alookup, hnone]

/-- Witness for C7 (amended): a failing LLM call propagates the wrapped error;
    an object reply missing the requested key "to" is accepted with "to" left
    unresolved. -/
theorem C7_witness :
    resolve_dynamic_arguments_with_llm ⟨fun _ => .error "down", fun _ => .error "x"⟩
        { Ctx.init with llm_connected := true } "send_email" [("to", .str "dynamic")] "u"
      = .error "Error resolviendo argumentos dinámicos con LLM: down"
    ∧ resolve_dynamic_arguments_with_llm c7orc c7ctx "send_email" [("to", .str "dynamic")] "u"
        = .ok ([("garbage", .str "x")], c7ctx)
    ∧ containsKey [("garbage", Val.str "x")] "to" = false := by
  have h1 := (C7_llm_resolution_error_semantics ⟨fun _ => .error "down", fun _ => .error "x"⟩
    { Ctx.init with llm_connected := true } "send_email" "u" [("to", .str "dynamic")]
    rfl (by decide) (by decide)).1 "down" rfl
  have h4 := (C7_llm_resolution_error_semantics c7orc c7ctx "send_email" "u"
    [("to", .str "dynamic")] rfl (by decide) (by decide)).2.2.2 "resp" [("garbage", .str "x")]
    rfl rfl
  refine ⟨h1, ?_, ?_⟩
  · have := h4.1
    simpa [pyUpdate, dset] using this
  · exact h4.2 "to" rfl

/-! ### C8: what resolving the body parameter actually returns -/

def c8ctx : Ctx :=
  store_result (store_result Ctx.init "drive.read_file_content"
      (.dict [("content", .str "EL CONTENIDO DEL ARCHIVO")]))
    "gmail.send_email" (.dict [("message", .str "Correo enviado correctamente")])

/-- C8 counterexample: a context that ingested a read-file result and then a
    confirmation message through store_result holds both (the file content under
    drive.read_file_content_content) and has no exact body key; yet resolving
    "body" returns the message text, not the file content — store_result never
    creates the bare keys the body pattern table looks up, so resolution falls
    through to last_content, which the later message store overwrote. -/
theorem C8_counterexample :
    containsKey c8ctx.data "body" = false
    ∧ alookup c8ctx.data "drive.read_file_content_content"
        = some (.str "EL CONTENIDO DEL ARCHIVO")
    ∧ (resolve_parameter c8ctx "body").1 = .str "Correo enviado correctamente" := by
  exact ⟨rfl, rfl, rfl⟩

/-- C8 (amended): the pattern table for body does try the file-content key
    first — when the context data directly contains a drive.read_file_content
    binding (and no exact body key), resolution returns it regardless of any
    message entry; but context built through store_result stores results only
    under method-qualified and last-X keys that the pattern table never matches,
    so body falls back to last_content and a confirmation message stored after
    the file read wins over the file content. -/
theorem C8_body_resolution_semantics :
    (∀ (data : AList) (mrs : List MethodResult) (cs : List (String × Nat)) (lc : Bool),
        containsKey data "body" = false →
        containsKey data "drive.read_file_content" = true →
        dget data "drive.read_file_content" ≠ Val.vnone →
        (resolve_parameter ⟨data, mrs, cs, lc⟩ "body").1
          = dget data "drive.read_file_content")
    ∧ (resolve_parameter (store_result (store_result Ctx.init "drive.read_file_content"
          (.dict [("content", .str "AAA")])) "gmail.send_email"
          (.dict [("message", .str "BBB")])) "body").1 = .str "BBB" := by
  constructor
  · intro data mrs cs lc hb hd hnv
    have h1 : dget data "body" = Val.vnone := by
      unfold containsKey at hb
      unfold dget
      cases halk : alookup data "body" with
      | none => rfl
      | some v => rw [halk] at hb; simp at hb
    have h2 : str_endswith "body" "_id" = false := rfl
    have hpt : pattern_table "body" = some [.ps "drive.read_file_content",
        .ps "llm.generate_content", .ps "content", .ps "text", .ps "message",
        .ps "description"] := rfl
    simp only [resolve_parameter, h1, ne_eq, not_true_eq_false, Bool.false_eq_true, if_false,
      resolve_id_parameter, h2, eq_self_iff_true, if_true, resolve_by_pattern, hpt, patScan, hd]
    simp [hnv]
  · rfl

/-- Witness for C8 (amended): with the pattern key present directly, body
    resolves to the file content even when a message entry exists; with the
    results ingested through store_result, body resolves to the message. -/
theorem C8_witness :
    (resolve_parameter ⟨[("drive.read_file_content", Val.str "FILE"),
        ("message", Val.str "MSG")], [], [], false⟩ "body").1 = Val.str "FILE"
    ∧ (resolve_parameter (store_result (store_result Ctx.init "drive.read_file_content"
        (.dict [("content", .str "AAA")])) "gmail.send_email"
        (.dict [("message", .str "BBB")])) "body").1 = .str "BBB" := by
  obtain ⟨h1, h2⟩ := C8_body_resolution_semantics
  refine ⟨?_, h2⟩
  have := h1 [("drive.read_file_content", Val.str "FILE"), ("message", Val.str "MSG")] [] []
    false rfl rfl (by decide)
  simpa using this

/-! ### C9: iterable extraction never fails on ambiguity, only on absence -/

def c9src : Val :=
  .dict [("a", .list [.dict [("x", .nat 1)]]), ("b", .list [.dict [("y", .nat 2)]])]

def c9tool : Tool := [("pm", { params := ["x"], func := fun _ => .ok (.str "r") })]

def c9step : Step := { method := some "pm", iterate := true, source := some "amb" }

/-- C9 counterexample: a source object with two candidate lists, neither of
    whose elements carry an id, is ambiguous; the claim demands a failed step,
    but extract_iterable silently returns the first candidate and the iteration
    step succeeds. -/
theorem C9_counterexample :
    extract_iterable c9src "src" = .ok [.dict [("x", .nat 1)]]
    ∧ allHaveId [.dict [("x", .nat 1)]] = false
    ∧ allHaveId [.dict [("y", .nat 2)]] = false
    ∧ (match execute_iteration_step c9step
          { Ctx.init with data := [("amb", c9src)] } (some c9tool) "u" with
       | .ok (d, _) =>
          (match d with
           | .dict f => alookup f "success" = some (.bool true)
           | _ => False)
       | .error _ => False) := by
  exact ⟨rfl, rfl, rfl, rfl⟩

/-- C9 (amended): extract_iterable uses a list source directly; in an object
    source it uses the single candidate list when there is exactly one; with
    several candidates it prefers the first whose elements all carry an id and
    otherwise silently falls back to the first candidate (no error on
    ambiguity); it raises — and the iteration step then returns success=false
    with an error naming the source — exactly when the source value is neither
    a list nor an object containing any candidate list. -/
theorem C9_extract_iterable_semantics :
    (∀ (l : List Val) (name : String), extract_iterable (.list l) name = .ok l)
    ∧ (∀ (d : AList) (name k : String) (items : List Val),
        candidatesOf d = [(k, items)] → extract_iterable (.dict d) name = .ok items)
    ∧ (∀ (d : AList) (name : String) (c : String × List Val) (cs : List (String × List Val)),
        candidatesOf d = c :: cs → cs ≠ [] →
        ((∀ cl, (c :: cs).find? (fun cl => allHaveId cl.2) = some cl →
            extract_iterable (.dict d) name = .ok cl.2)
         ∧ ((c :: cs).find? (fun cl => allHaveId cl.2) = none →
            extract_iterable (.dict d) name = .ok c.2)))
    ∧ (∀ (d : AList) (name : String), candidatesOf d = [] →
        extract_iterable (.dict d) name = .error (no_array_msg name))
    ∧ (∀ (name : String) (v : Val), (∀ l, v ≠ Val.list l) → (∀ dd, v ≠ Val.dict dd) →
        extract_iterable v name = .error (no_array_msg name))
    ∧ (∀ (step : Step) (ctx : Ctx) (tno : Option Tool) (ui src e : String),
        step.source = some src →
        extract_iterable (resolve_parameter ctx src).1 src = .error e →
        execute_iteration_step step ctx tno ui
          = .ok (.dict [("success", .bool false), ("error", .str (no_array_msg src))],
                 (resolve_parameter ctx src).2)) := by
  refine ⟨?_, ?_, ?_, ?_, ?_, ?_⟩
  · intro l name
    rfl
  · intro d name k items h
    simp only [extract_iterable, h]
  · intro d name c cs h hne
    cases cs with
    | nil => exact absurd rfl hne
    | cons c2 cs2 =>
        constructor
        · intro cl hf
          simp only [extract_iterable, h, hf]
        · intro hf
          simp only [extract_iterable, h, hf]
  · intro d name h
    simp only [extract_iterable, h]
  · intro name v hl hd
    cases v with
    | list l => exact absurd rfl (hl l)
    | dict dd => exact absurd rfl (hd dd)
    | vnone => rfl
    | bool b => rfl
    | nat n => rfl
    | str s => rfl
  · intro step ctx tno ui src e hsrc herr
    simp only [execute_iteration_step, hsrc]
    rcases hrp : resolve_parameter ctx src with ⟨raw, ctx1⟩
    rw [hrp] at herr
    dsimp only at herr ⊢
    rw [herr]

/-- Witness for C9 (amended): the list, single-candidate, id-preference and
    error cases at concrete inputs; an iteration step over a non-collection
    source fails with the source named in the error. -/
theorem C9_witness :
    extract_iterable (.list [.nat 1]) "s" = .ok [.nat 1]
    ∧ extract_iterable (.dict [("only", .list [.dict [("id", .str "a")]])]) "s"
        = .ok [.dict [("id", .str "a")]]
    ∧ extract_iterable (.dict [("p", .list [.dict [("x", .nat 0)]]),
        ("q", .list [.dict [("id", .str "i")]])]) "s" = .ok [.dict [("id", .str "i")]]
    ∧ extract_iterable (.str "nope") "s" = .error (no_array_msg "s")
    ∧ execute_iteration_step c9step { Ctx.init with data := [("amb", .str "zzz")] }
        (some c9tool) "u"
      = .ok (.dict [("success", .bool false), ("error", .str (no_array_msg "amb"))],
             { Ctx.init with data := [("amb", .str "zzz")] }) := by
  obtain ⟨h1, h2, h3, h4, h5, h6⟩ := C9_extract_iterable_semantics
  refine ⟨h1 [.nat 1] "s", ?_, ?_, ?_, ?_⟩
  · exact h2 [("only", .list [.dict [("id", .str "a")]])] "s" "only"
      [.dict [("id", .str "a")]] rfl
  · exact (h3 [("p", .list [.dict [("x", .nat 0)]]), ("q", .list [.dict [("id", .str "i")]])]
      "s" ("p", [.dict [("x", .nat 0)]]) [("q", [.dict [("id", .str "i")]])] rfl
      (by decide)).1 ("q", [.dict [("id", .str "i")]]) rfl
  · exact h5 "s" (.str "nope") (fun l h => by cases h) (fun dd h => by cases h)
  · have := h6 c9step { Ctx.init with data := [("amb", .str "zzz")] } (some c9tool) "u"
      "amb" (no_array_msg "amb") rfl rfl
    simpa using this

/-! ### C10: the content-generation trigger set -/

def c10orc : Oracle := ⟨fun _ => .ok "GENERATED", fun _ => .error "no json"⟩

def c10ctx : Ctx := { Ctx.init with llm_connected := true }

/-- C10 counterexample: the value "create_content ya" contains none of the three
    substrings the claim names (dynamic, auto, generate), yet the check triggers
    and generate_content_if_needed replaces the literal with the generated text
    instead of returning it unchanged — the source trigger set also includes
    create_content. -/
theorem C10_counterexample :
    needs_content_generation (.str "create_content ya") = true
    ∧ str_contains (str_lower "create_content ya") "dynamic" = false
    ∧ str_contains (str_lower "create_content ya") "auto" = false
    ∧ str_contains (str_lower "create_content ya") "generate" = false
    ∧ generate_content_if_needed c10orc c10ctx "body" (.str "create_content ya") "u"
        = .str "GENERATED" := by
  exact ⟨rfl, rfl, rfl, rfl, rfl⟩

theorem hasPrefixChars_append (p r : List Char) :
    ∀ l, hasPrefixChars (p ++ r) l = true → hasPrefixChars p l = true := by
  induction p with
  | nil => intro l _; rfl
  | cons c ps ih =>
      intro l h
      cases l with
      | nil => simp [hasPrefixChars] at h
      | cons x xs =>
          simp only [List.cons_append, hasPrefixChars, Bool.and_eq_true] at h ⊢
          exact ⟨h.1, ih xs h.2⟩

theorem containsChars_of_append (p r : List Char) :
    ∀ l, containsChars (p ++ r) l = true → containsChars p l = true := by
  intro l
  induction l with
  | nil =>
      simp only [containsChars, List.isEmpty_iff, List.append_eq_nil]
      exact fun h => h.1
  | cons c t ih =>
      simp only [containsChars, Bool.or_eq_true]
      rintro (h | h)
      · exact Or.inl (hasPrefixChars_append p r _ h)
      · exact Or.inr (ih h)

theorem str_contains_of_append (s a b : String) (h : str_contains s (a ++ b) = true) :
    str_contains s a = true := by
  unfold str_contains at *
  rw [String.data_append] at h
  exact containsChars_of_append _ _ _ h

/-- C10 (amended): the generation check is a case-insensitive substring test on
    the lowered value, but over the trigger substrings dynamic, auto, generate
    AND create_content (the compound triggers dynamic_summary, auto_summary and
    generate_content are subsumed by their prefixes); a triggering value is
    replaced by the LLM-generated text when generation yields non-empty output,
    and any value that triggers nothing is returned unchanged. -/
theorem C10_generation_trigger_semantics :
    (∀ s : String, needs_content_generation (.str s) = true
        ↔ (s ≠ "" ∧ (str_contains (str_lower s) "dynamic" = true
            ∨ str_contains (str_lower s) "auto" = true
            ∨ str_contains (str_lower s) "generate" = true
            ∨ str_contains (str_lower s) "create_content" = true)))
    ∧ (∀ (orc : Oracle) (ctx : Ctx) (p : String) (v : Val) (ui : String),
        needs_content_generation v = false → generate_content_if_needed orc ctx p v ui = v)
    ∧ (∀ (orc : Oracle) (ctx : Ctx) (p : String) (v : Val) (ui g : String),
        needs_content_generation v = true → ctx.llm_connected = true →
        orc.call_llm (gen_full_prompt p ui) = .ok g → str_strip g ≠ "" →
        generate_content_if_needed orc ctx p v ui = .str (str_strip g)) := by
  refine ⟨?_, ?_, ?_⟩
  · intro s
    by_cases hs : s = ""
    · subst hs
      simp [needs_content_generation, truthy]
    · have ht : truthy (.str s) = true := by simp [truthy, hs]
      simp only [needs_content_generation, ht, Bool.true_eq_false, if_false,
        generation_triggers, List.any_cons, List.any_nil, Bool.or_eq_true, Bool.or_false,
        pyStr]
      constructor
      · rintro (h | h | h | h | h | h | h)
        · exact ⟨hs, Or.inl h⟩
        · exact ⟨hs, Or.inr (Or.inl h)⟩
        · exact ⟨hs, Or.inr (Or.inr (Or.inl h))⟩
        · refine ⟨hs, Or.inl ?_⟩
          have he : ("dynamic" ++ "_summary" : String) = "dynamic_summary" := rfl
          rw [← he] at h
          exact str_contains_of_append _ _ _ h
        · refine ⟨hs, Or.inr (Or.inl ?_)⟩
          have he : ("auto" ++ "_summary" : String) = "auto_summary" := rfl
          rw [← he] at h
          exact str_contains_of_append _ _ _ h
        · refine ⟨hs, Or.inr (Or.inr (Or.inl ?_))⟩
          have he : ("generate" ++ "_content" : String) = "generate_content" := rfl
          rw [← he] at h
          exact str_contains_of_append _ _ _ h
        · exact ⟨hs, Or.inr (Or.inr (Or.inr h))⟩
      · rintro ⟨-, (h | h | h | h)⟩
        · exact Or.inl h
        · exact Or.inr (Or.inl h)
        · exact Or.inr (Or.inr (Or.inl h))
        · exact Or.inr (Or.inr (Or.inr (Or.inr (Or.inr (Or.inr h)))))
  · intro orc ctx p v ui h
    simp [generate_content_if_needed, h]
  · intro orc ctx p v ui g hneed hllm hcall hg
    simp only [generate_content_if_needed, hneed, Bool.true_eq_false, if_false,
      generate_contextual_content, hllm, Bool.true_eq_false, hcall]
    simp [hg]

/-- Witness for C10 (amended): a mixed-case value containing auto triggers; a
    plain value is returned unchanged; a dynamic value is replaced by the
    generated text. -/
theorem C10_witness :
    needs_content_generation (.str "AUTOMATIC report") = true
    ∧ generate_content_if_needed c10orc c10ctx "body" (.str "un informe normal") "u"
        = .str "un informe normal"
    ∧ generate_content_if_needed c10orc c10ctx "body" (.str "dynamic") "u"
        = .str "GENERATED" := by
  obtain ⟨h1, h2, h3⟩ := C10_generation_trigger_semantics
  refine ⟨(h1 "AUTOMATIC report").mpr ⟨by decide, Or.inr (Or.inl (by decide))⟩, ?_, ?_⟩
  · exact h2 c10orc c10ctx "body" (.str "un informe normal") "u" (by decide)
  · exact h3 c10orc c10ctx "body" (.str "dynamic") "u" "GENERATED" (by decide) rfl rfl
      (by decide)

end AW
